import Mathlib

/-!
Verification of the `simple-tftp` crate against its specification.

This file gives a shallow embedding of the crate's packet codec
(`src/packet.rs`), chunked reader (`src/datastream.rs`), transfer engine
(`src/server.rs`) and socket send path (`src/socket.rs`), and proves the
specified properties about it.

Modelling conventions:
* byte buffers are `List Nat` (each element a byte value; Rust `u8`);
* Rust strings that come out of the parser are kept as their byte lists;
* machine integers are `Nat` with explicit `% 2 ^ w` / bound checks where
  the Rust code relies on wrapping or bounded arithmetic;
* fallible Rust functions returning `Result` become `Except`;
* Rust slice writes are routed through a write-tracking buffer (`WBuf`)
  whose `oob` flag records any attempted out-of-bounds write, i.e. any
  write on which the Rust original would have panicked.
-/

deriving instance DecidableEq for Except

namespace SimpleTftp

/-- Byte values of a Rust ASCII string literal. -/
def strBytes (s : String) : List Nat := s.toList.map Char.toNat

/-- Model of `crate::error::Error` (file `src/error.rs`). -/
inductive TftpError where
  | BufferTooSmall
  | InvalidOpcode (v : Nat)
  | InvalidAck
  | BadFormatting
  | OptionRepeated
  | InvalidBlockSize (v : Nat)
deriving DecidableEq, Repr

/-- Model of `packet::OpCode`. -/
inductive OpCode where
  | ReadRequest
  | WriteRequest
  | Data
  | Acknowledgement
  | Error
  | OptionAck
deriving DecidableEq, Repr

/-- Wire value of an opcode (the `#[repr(u16)]` discriminants). -/
def OpCode.toNat : OpCode → Nat
  | .ReadRequest => 1
  | .WriteRequest => 2
  | .Data => 3
  | .Acknowledgement => 4
  | .Error => 5
  | .OptionAck => 6

/-- Model of `impl TryFrom<u16> for OpCode`. -/
def OpCode.tryFrom (value : Nat) : Except TftpError OpCode :=
  match value with
  | 1 => .ok .ReadRequest
  | 2 => .ok .WriteRequest
  | 3 => .ok .Data
  | 4 => .ok .Acknowledgement
  | 5 => .ok .Error
  | 6 => .ok .OptionAck
  | e => .error (.InvalidOpcode e)

/-- Big-endian byte pair of a `u16` value (`u16::to_be_bytes`). -/
def u16be (n : Nat) : List Nat := [n / 256 % 256, n % 256]

/-- Model of `packet::printable_ascii_str_from_u8`: scan for the first byte
outside the printable range 32..=127; if that byte is 0 the preceding span is
returned as the string together with the remainder after the terminator,
otherwise (or when no such byte exists) the field is malformed.  The `getD`
default is irrelevant: `findIdx?` only returns in-range indices. -/
def printable_ascii_str_from_u8 (data : List Nat) :
    Except TftpError (List Nat × List Nat) :=
  match data.findIdx? (fun n => n < 32 || 127 < n) with
  | some index =>
      if data.getD index 1 = 0 then
        .ok (data.take index, data.drop (index + 1))
      else .error .BadFormatting
  | none => .error .BadFormatting

/-- Model of `packet::get_option_pair`: pull two consecutive null-terminated
text fields (name, value) off the option region, or `none` when it is empty. -/
def get_option_pair (data : List Nat) :
    Except TftpError (Option ((List Nat × List Nat) × List Nat)) :=
  if data = [] then .ok none
  else
    match printable_ascii_str_from_u8 data with
    | .error e => .error e
    | .ok (name, rest) =>
      match printable_ascii_str_from_u8 rest with
      | .error e => .error e
      | .ok (value, rest2) => .ok (some ((name, value), rest2))

theorem printable_rem_lt (d : List Nat) (p : List Nat × List Nat)
    (h : printable_ascii_str_from_u8 d = .ok p) : p.2.length < d.length := by
  cases d with
  | nil => simp [printable_ascii_str_from_u8] at h
  | cons a as =>
    unfold printable_ascii_str_from_u8 at h
    split at h
    · split at h
      · simp only [Except.ok.injEq] at h
        subst h
        simp only [List.length_drop, List.length_cons]
        omega
      · simp at h
    · simp at h

theorem get_option_pair_rem_lt (d : List Nat) (p : List Nat × List Nat) (r : List Nat)
    (h : get_option_pair d = .ok (some (p, r))) : r.length < d.length := by
  unfold get_option_pair at h
  split at h
  · simp at h
  · split at h
    · simp at h
    · rename_i name rest h1
      split at h
      · simp at h
      · rename_i value rest2 h2
        simp only [Except.ok.injEq, Option.some.injEq, Prod.mk.injEq] at h
        obtain ⟨-, hr⟩ := h
        subst hr
        calc rest2.length < rest.length := printable_rem_lt _ _ h2
          _ < d.length := printable_rem_lt _ _ h1

/-- Whether a byte is an ASCII decimal digit. -/
def isAsciiDigit (c : Nat) : Bool := 48 ≤ c && c ≤ 57

/-- Numeric value of a list of ASCII digit bytes. -/
def digitsToNat (l : List Nat) : Nat := l.foldl (fun a c => a * 10 + (c - 48)) 0

/-- Model of Rust `str::parse` for an unsigned integer type whose values are
below `limit`: an optional leading plus sign, then one or more ASCII digits,
and the value must fit the type. -/
def parseUnsigned (limit : Nat) (s : List Nat) : Option Nat :=
  let body := if s.headD 0 = 43 then s.tail else s
  if !body.isEmpty && body.all isAsciiDigit && decide (digitsToNat body < limit) then
    some (digitsToNat body)
  else none

/-- Model of Rust `str::parse::<NonZeroU8>`: a `u8` that must be nonzero. -/
def parseNonZeroU8 (s : List Nat) : Option Nat :=
  match parseUnsigned 256 s with
  | some 0 => none
  | some n => some n
  | none => none

/-- Model of `packet::parse_blocksize`: parse as `u32`, then range-check
against the valid blocksize range 8..=65464.  The `as u16` cast in the source
is the identity on the accepted range. -/
def parse_blocksize (as_str : List Nat) : Except TftpError Nat :=
  match parseUnsigned (2 ^ 32) as_str with
  | none => .error .BadFormatting
  | some requested_blocksize =>
    if requested_blocksize < 8 || requested_blocksize > 65464 then
      .error (.InvalidBlockSize requested_blocksize)
    else .ok requested_blocksize

/-- ASCII lowercase of one byte (`u8::to_ascii_lowercase`). -/
def toAsciiLower (c : Nat) : Nat := if 65 ≤ c && c ≤ 90 then c + 32 else c

/-- Model of `str::eq_ignore_ascii_case`. -/
def eqIgnoreAsciiCase (a b : List Nat) : Bool :=
  a.map toAsciiLower == b.map toAsciiLower

/-- Model of `packet::Request` (borrowed strings become byte lists). -/
structure Request where
  is_read : Bool
  filename : List Nat
  blocksize : Option Nat
  include_transfer_size : Bool
  timeout_seconds : Option Nat
  unknown_options : List Nat
deriving DecidableEq, Repr

/-- Model of `packet::Data`. -/
structure Data where
  block_nr : Nat
  data : List Nat
deriving DecidableEq, Repr

/-- Model of `packet::Ack`. -/
structure Ack where
  block_nr : Nat
deriving DecidableEq, Repr

/-- Model of `packet::Error` (an error code plus a message). -/
structure Error where
  error_code : Nat
  message : List Nat
deriving DecidableEq, Repr

/-- Model of `packet::OptionAck`. -/
structure OptionAck where
  blocksize : Option Nat
  transfer_size : Option Nat
  timeout_seconds : Option Nat
  unknown_options : List Nat
deriving DecidableEq, Repr

/-- Model of `packet::Packet`, the discriminated union of the five kinds. -/
inductive Packet where
  | Data (d : Data)
  | Request (r : Request)
  | Error (e : Error)
  | Ack (a : Ack)
  | OptionAck (o : OptionAck)
deriving DecidableEq, Repr

/-- Option-scanning loop of `Request::from_bytes_skip_opcode_check`.  The
arguments after the region are the loop state: the mutable locals
`blocksize`, `include_transfer_size`, `timeout_seconds`, `has_unknown_options`
of the Rust function. -/
def requestOptionsLoop (options_data : List Nat) (blocksize : Option Nat)
    (include_transfer_size : Bool) (timeout_seconds : Option Nat)
    (has_unknown_options : Bool) :
    Except TftpError (Option Nat × Bool × Option Nat × Bool) :=
  match h : get_option_pair options_data with
  | .error e => .error e
  | .ok none => .ok (blocksize, include_transfer_size, timeout_seconds, has_unknown_options)
  | .ok (some ((name, value), remainder)) =>
    if eqIgnoreAsciiCase name (strBytes "blksize") then
      if blocksize.isSome then .error .OptionRepeated
      else
        match parse_blocksize value with
        | .error e => .error e
        | .ok bs =>
          requestOptionsLoop remainder (some bs) include_transfer_size timeout_seconds
            has_unknown_options
    else if eqIgnoreAsciiCase name (strBytes "tsize") then
      if include_transfer_size then .error .OptionRepeated
      else if value ≠ strBytes "0" then .error .BadFormatting
      else requestOptionsLoop remainder blocksize true timeout_seconds has_unknown_options
    else if eqIgnoreAsciiCase name (strBytes "timeout") then
      if timeout_seconds.isSome then .error .OptionRepeated
      else
        match parseNonZeroU8 value with
        | none => .error .BadFormatting
        | some t =>
          requestOptionsLoop remainder blocksize include_transfer_size (some t)
            has_unknown_options
    else requestOptionsLoop remainder blocksize include_transfer_size timeout_seconds true
termination_by options_data.length
decreasing_by all_goals exact get_option_pair_rem_lt _ _ _ h

/-- Model of `Request::from_bytes_skip_opcode_check`: filename and mode
fields, then the option loop, then the (deliberately late) mode check. -/
def Request.from_bytes_skip_opcode_check (data : List Nat) (is_read : Bool) :
    Except TftpError Request :=
  match printable_ascii_str_from_u8 (data.drop 2) with
  | .error e => .error e
  | .ok (filename, d1) =>
    match printable_ascii_str_from_u8 d1 with
    | .error e => .error e
    | .ok (mode, options_start) =>
      match requestOptionsLoop options_start none false none false with
      | .error e => .error e
      | .ok (blocksize, include_transfer_size, timeout_seconds, has_unknown_options) =>
        if !eqIgnoreAsciiCase mode (strBytes "octet") then .error .BadFormatting
        else .ok { is_read, filename, blocksize, include_transfer_size, timeout_seconds,
                   unknown_options := if has_unknown_options then options_start else [] }

/-- Option-scanning loop of `OptionAck::from_bytes_skip_opcode_check`; state
is `blocksize`, `transfer_size`, `timeout_seconds`, `has_unknown_options`. -/
def oackOptionsLoop (data : List Nat) (blocksize : Option Nat)
    (transfer_size : Option Nat) (timeout_seconds : Option Nat)
    (has_unknown_options : Bool) :
    Except TftpError (Option Nat × Option Nat × Option Nat × Bool) :=
  match h : get_option_pair data with
  | .error e => .error e
  | .ok none => .ok (blocksize, transfer_size, timeout_seconds, has_unknown_options)
  | .ok (some ((name, value), remainder)) =>
    if eqIgnoreAsciiCase name (strBytes "blksize") then
      if blocksize.isSome then .error .OptionRepeated
      else
        match parse_blocksize value with
        | .error e => .error e
        | .ok bs =>
          oackOptionsLoop remainder (some bs) transfer_size timeout_seconds
            has_unknown_options
    else if eqIgnoreAsciiCase name (strBytes "tsize") then
      if transfer_size.isSome then .error .OptionRepeated
      else
        match parseUnsigned (2 ^ 64) value with
        | none => .error .BadFormatting
        | some ts =>
          oackOptionsLoop remainder blocksize (some ts) timeout_seconds
            has_unknown_options
    else if eqIgnoreAsciiCase name (strBytes "timeout") then
      if timeout_seconds.isSome then .error .OptionRepeated
      else
        match parseNonZeroU8 value with
        | none => .error .BadFormatting
        | some t =>
          oackOptionsLoop remainder blocksize transfer_size (some t)
            has_unknown_options
    else oackOptionsLoop remainder blocksize transfer_size timeout_seconds true
termination_by data.length
decreasing_by all_goals exact get_option_pair_rem_lt _ _ _ h

/-- Model of `OptionAck::from_bytes_skip_opcode_check`. -/
def OptionAck.from_bytes_skip_opcode_check (data : List Nat) :
    Except TftpError OptionAck :=
  match oackOptionsLoop (data.drop 2) none none none false with
  | .error e => .error e
  | .ok (blocksize, transfer_size, timeout_seconds, has_unknown_options) =>
    .ok { blocksize, transfer_size, timeout_seconds,
          unknown_options := if has_unknown_options then data.drop 2 else [] }

/-- Model of `Data::from_bytes_skip_opcode_check`. -/
def Data.from_bytes_skip_opcode_check (data : List Nat) : Except TftpError Data :=
  if data.length < 4 then .error .BufferTooSmall
  else .ok { block_nr := data.getD 2 0 * 256 + data.getD 3 0, data := data.drop 4 }

/-- Model of `Ack::from_bytes_skip_opcode_check`. -/
def Ack.from_bytes_skip_opcode_check (data : List Nat) : Except TftpError Ack :=
  if data.length < 4 then .error .BufferTooSmall
  else .ok { block_nr := data.getD 2 0 * 256 + data.getD 3 0 }

/-- Model of `Error::from_bytes_skip_opcode_check`. -/
def Error.from_bytes_skip_opcode_check (data : List Nat) : Except TftpError Error :=
  if data.length < 4 then .error .BufferTooSmall
  else
    match printable_ascii_str_from_u8 (data.drop 4) with
    | .error e => .error e
    | .ok (message, _) =>
      .ok { error_code := data.getD 2 0 * 256 + data.getD 3 0, message }

/-- Model of `Packet::from_bytes`: length check, big-endian opcode, dispatch. -/
def Packet.from_bytes (data : List Nat) : Except TftpError Packet :=
  if data.length < 2 then .error .BufferTooSmall
  else
    match OpCode.tryFrom (data.getD 0 0 * 256 + data.getD 1 0) with
    | .error e => .error e
    | .ok .ReadRequest =>
      (Request.from_bytes_skip_opcode_check data true).map Packet.Request
    | .ok .WriteRequest =>
      (Request.from_bytes_skip_opcode_check data false).map Packet.Request
    | .ok .Data => (Data.from_bytes_skip_opcode_check data).map Packet.Data
    | .ok .Acknowledgement => (Ack.from_bytes_skip_opcode_check data).map Packet.Ack
    | .ok .Error => (Error.from_bytes_skip_opcode_check data).map Packet.Error
    | .ok .OptionAck => (OptionAck.from_bytes_skip_opcode_check data).map Packet.OptionAck

/-- Decimal digit bytes of a number, as produced by the `Display`
implementations of the Rust unsigned integer types. -/
def natDecimal (n : Nat) : List Nat := (Nat.toDigits 10 n).map Char.toNat

/-- Write-tracking byte buffer.  Rust's slice indexing panics when out of
bounds; here every raw slice write is guarded and an out-of-bounds attempt
sets the `oob` flag instead (leaving the data unchanged), so `oob = false`
after a run means the Rust original performs no out-of-bounds access. -/
structure WBuf where
  data : List Nat
  oob : Bool
deriving DecidableEq, Repr

/-- Model of `buf[start..stop].copy_from_slice(src)`: requires
`start <= stop <= buf.len()` and `src.len() == stop - start`, otherwise the
Rust original panics (modelled by setting `oob`). -/
def WBuf.copyFromSlice (b : WBuf) (start stop : Nat) (src : List Nat) : WBuf :=
  if start ≤ stop && stop ≤ b.data.length && src.length == stop - start then
    { b with data := b.data.take start ++ src ++ b.data.drop stop }
  else { b with oob := true }

/-- Model of `buf[i] = v`. -/
def WBuf.setByte (b : WBuf) (i : Nat) (v : Nat) : WBuf :=
  if i < b.data.length then { b with data := b.data.set i v }
  else { b with oob := true }

/-- Model of `packet::BufferWriter`. -/
structure BufferWriter where
  buff : WBuf
  size : Nat
  overflowed : Bool
deriving DecidableEq, Repr

/-- Model of `BufferWriter::new`. -/
def BufferWriter.new (buff : WBuf) : BufferWriter := ⟨buff, 0, false⟩

/-- Model of `BufferWriter::push_bytes`: copy as many bytes as fit, record
overflow when the slice was truncated.  The `free_bytes` subtraction in the
source is on `usize` and never underflows because `size <= buff.len()` is an
invariant (proved below as `BufferWriter.Inv`). -/
def BufferWriter.push_bytes (w : BufferWriter) (bytes : List Nat) : BufferWriter :=
  let free_bytes := w.buff.data.length - w.size
  let to_push := min bytes.length free_bytes
  { buff := w.buff.copyFromSlice w.size (w.size + to_push) (bytes.take to_push),
    size := w.size + to_push,
    overflowed := w.overflowed || decide (to_push < bytes.length) }

/-- Model of `BufferWriter::push_byte`. -/
def BufferWriter.push_byte (w : BufferWriter) (byte : Nat) : BufferWriter :=
  if w.size < w.buff.data.length then
    { w with buff := w.buff.setByte w.size byte, size := w.size + 1 }
  else { w with overflowed := true }

/-- Model of a `write!(writer, ..)` call: `core::fmt` feeds the format pieces
to `BufferWriter::write_str` one by one and stops at the first piece after
which the writer reports overflow (its `write_str` returns `Err` exactly when
`overflowed()` is set after the push). -/
def BufferWriter.writeFmtPieces (w : BufferWriter) : List (List Nat) → BufferWriter
  | [] => w
  | piece :: rest =>
    let w2 := w.push_bytes piece
    if w2.overflowed then w2 else w2.writeFmtPieces rest

/-- Wire opcode of a request (`Request::opcode`). -/
def Request.opcodeNat (r : Request) : Nat := if r.is_read then 1 else 2

/-- Model of `Request::to_bytes`: opcode, filename, NUL, the (misspelled)
mode string `"octets\0"` exactly as in the source, then the optional
`blksize`, `timeout` and `tsize` option pairs. -/
def Request.to_bytes (r : Request) (buf : WBuf) : Except TftpError Nat × WBuf :=
  let w := BufferWriter.new buf
  let w := w.push_bytes (u16be r.opcodeNat)
  let w := w.push_bytes r.filename
  let w := w.push_byte 0
  let w := w.push_bytes (strBytes "octets" ++ [0])
  let w := match r.blocksize with
    | some blocksize => w.writeFmtPieces [strBytes "blksize" ++ [0], natDecimal blocksize, [0]]
    | none => w
  let w := match r.timeout_seconds with
    | some timeout => w.writeFmtPieces [strBytes "timeout" ++ [0], natDecimal timeout, [0]]
    | none => w
  let w := if r.include_transfer_size then w.push_bytes (strBytes "tsize" ++ [0, 48, 0]) else w
  if w.overflowed then (.error .BufferTooSmall, w.buff) else (.ok w.size, w.buff)

/-- Model of `Data::to_bytes`: up-front size check, then three raw writes. -/
def Data.to_bytes (d : Data) (buf : WBuf) : Except TftpError Nat × WBuf :=
  let n_bytes := 4 + d.data.length
  if n_bytes > buf.data.length then (.error .BufferTooSmall, buf)
  else
    let b := buf.copyFromSlice 0 2 (u16be (OpCode.Data.toNat))
    let b := b.copyFromSlice 2 4 (u16be d.block_nr)
    let b := b.copyFromSlice 4 n_bytes d.data
    (.ok n_bytes, b)

/-- Model of `Ack::to_bytes`.  Note: the source writes `OpCode::Error as u16`
(value 5) into the opcode field, not `OpCode::Acknowledgement` (value 4). -/
def Ack.to_bytes (a : Ack) (buf : WBuf) : Except TftpError Nat × WBuf :=
  let n_bytes := 4
  if buf.data.length ≥ n_bytes then
    let b := buf.copyFromSlice 0 2 (u16be (OpCode.Error.toNat))
    let b := b.copyFromSlice 2 4 (u16be a.block_nr)
    (.ok n_bytes, b)
  else (.error .BufferTooSmall, buf)

/-- Model of `Error::to_bytes`. -/
def Error.to_bytes (e : Error) (buf : WBuf) : Except TftpError Nat × WBuf :=
  let n_bytes := 4 + e.message.length + 1
  if n_bytes > buf.data.length then (.error .BufferTooSmall, buf)
  else
    let b := buf.copyFromSlice 0 2 (u16be (OpCode.Error.toNat))
    let b := b.copyFromSlice 2 4 (u16be e.error_code)
    let b := b.copyFromSlice 4 (4 + e.message.length) e.message
    let b := b.setByte (4 + e.message.length) 0
    (.ok n_bytes, b)

/-- Model of `OptionAck::to_bytes`. -/
def OptionAck.to_bytes (o : OptionAck) (buf : WBuf) : Except TftpError Nat × WBuf :=
  let w := BufferWriter.new buf
  let w := w.push_bytes (u16be (OpCode.OptionAck.toNat))
  let w := match o.blocksize with
    | some blocksize => w.writeFmtPieces [strBytes "blksize" ++ [0], natDecimal blocksize, [0]]
    | none => w
  let w := match o.transfer_size with
    | some tsize => w.writeFmtPieces [strBytes "tsize" ++ [0], natDecimal tsize, [0]]
    | none => w
  let w := match o.timeout_seconds with
    | some timeout => w.writeFmtPieces [strBytes "timeout" ++ [0], natDecimal timeout, [0]]
    | none => w
  if w.overflowed then (.error .BufferTooSmall, w.buff) else (.ok w.size, w.buff)

/-- Model of `Packet::to_bytes` (dispatch on the packet kind). -/
def Packet.to_bytes (p : Packet) (buf : WBuf) : Except TftpError Nat × WBuf :=
  match p with
  | .Ack x => x.to_bytes buf
  | .Data x => x.to_bytes buf
  | .Error x => x.to_bytes buf
  | .Request x => x.to_bytes buf
  | .OptionAck x => x.to_bytes buf

/-- Model of `OptionAck::new`: stores the three option values verbatim, with
no unknown options and no range validation. -/
def OptionAck.new (blocksize : Option Nat) (transfer_size : Option Nat)
    (timeout_seconds : Option Nat) : OptionAck :=
  { blocksize, transfer_size, timeout_seconds, unknown_options := [] }

/-- Model of `OptionAck::is_empty`. -/
def OptionAck.is_empty (o : OptionAck) : Bool :=
  o.blocksize.isNone && o.timeout_seconds.isNone && o.transfer_size.isNone
    && o.unknown_options.isEmpty

/-- Total number of bytes `Request::to_bytes` wants to write. -/
def Request.encodedSize (r : Request) : Nat :=
  2 + r.filename.length + 1 + 7
  + (match r.blocksize with
     | some blocksize => 8 + (natDecimal blocksize).length + 1
     | none => 0)
  + (match r.timeout_seconds with
     | some timeout => 8 + (natDecimal timeout).length + 1
     | none => 0)
  + (if r.include_transfer_size then 8 else 0)

/-- Total number of bytes `OptionAck::to_bytes` wants to write. -/
def OptionAck.encodedSize (o : OptionAck) : Nat :=
  2
  + (match o.blocksize with
     | some blocksize => 8 + (natDecimal blocksize).length + 1
     | none => 0)
  + (match o.transfer_size with
     | some tsize => 6 + (natDecimal tsize).length + 1
     | none => 0)
  + (match o.timeout_seconds with
     | some timeout => 8 + (natDecimal timeout).length + 1
     | none => 0)

/-- Total number of bytes each packet kind's `to_bytes` wants to write. -/
def Packet.encodedSize (p : Packet) : Nat :=
  match p with
  | .Ack _ => 4
  | .Data d => 4 + d.data.length
  | .Error e => 4 + e.message.length + 1
  | .Request r => r.encodedSize
  | .OptionAck o => o.encodedSize

/-- Model of the byte source handed to a `DataStream` (the `R: std::io::Read`
collaborator): a deterministic stream that delivers `bytes` and then either
reports end-of-stream (`failCode = none`) or fails with the I/O error
identified by `failCode = some c`.  Reads deliver `min buf.len remaining`
bytes, like the slice reader used by the crate's own tests; the
`Interrupted`/`WouldBlock` retry arms of `try_read_exact` never fire for a
deterministic source. -/
structure Source where
  bytes : List Nat
  failCode : Option Nat
deriving DecidableEq, Repr

/-- Model of `ChunkyReader::try_read_exact`: repeatedly read until the buffer
(of length `bufLen`) is full or the source reports end-of-stream; a live
I/O error propagates.  Returns the bytes actually delivered together with
the source's new state. -/
def tryReadExact (s : Source) (bufLen : Nat) : Except Nat (List Nat × Source) :=
  if bufLen = 0 then .ok ([], s)
  else
    match s with
    | ⟨[], some c⟩ => .error c
    | ⟨[], none⟩ => .ok ([], ⟨[], none⟩)
    | ⟨b :: rest, fc⟩ =>
      match tryReadExact ⟨(b :: rest).drop (min bufLen (b :: rest).length), fc⟩
              (bufLen - min bufLen (b :: rest).length) with
      | .error c => .error c
      | .ok (restChunk, s2) =>
        .ok ((b :: rest).take (min bufLen (b :: rest).length) ++ restChunk, s2)
termination_by bufLen
decreasing_by
  simp only [List.length_cons]
  omega

/-- Model of `datastream::DataStream`.  The reusable frame buffer pre-stamped
with the Data opcode is modelled by `next_raw` building each returned frame
as `[0, 3] ++ block counter ++ payload`; `blocksize` is `buffer.len() - 4`. -/
structure DataStream where
  source : Source
  block_counter : Nat
  is_finished : Bool
  blocksize : Nat
deriving DecidableEq, Repr

/-- Model of `DataStream::new`. -/
def DataStream.new (source : Source) (blocksize : Nat) : DataStream :=
  ⟨source, 0, false, blocksize⟩

/-- Model of `DataStream::next_raw`: advance the wrapping 16-bit block
counter, stamp it, fill the payload region; a short read latches the stream
finished, a read error latches it finished and propagates.  In the error
case the consumed-source state is unobservable (the latch prevents any
further read), so `source` is left unchanged there. -/
def DataStream.next_raw (ds : DataStream) :
    Except Nat (Option (List Nat)) × DataStream :=
  if ds.is_finished then (.ok none, ds)
  else
    match tryReadExact ds.source ds.blocksize with
    | .error e =>
      (.error e,
       { ds with block_counter := (ds.block_counter + 1) % 65536, is_finished := true })
    | .ok (payload, source') =>
      (.ok (some (u16be OpCode.Data.toNat ++ u16be ((ds.block_counter + 1) % 65536)
              ++ payload)),
       { ds with source := source', block_counter := (ds.block_counter + 1) % 65536,
                 is_finished := decide (payload.length < ds.blocksize) })

/-- How a run of repeated `next_raw` calls ended. -/
inductive StreamEnd where
  | finished
  | fuelOut
  | readErr (c : Nat)
deriving DecidableEq, Repr

/-- Drive `next_raw` up to `fuel` times, collecting the produced frames
until it returns `None` (`finished`), fails (`readErr`), or the fuel runs
out (`fuelOut`). -/
def runStream : DataStream → Nat → List (List Nat) × StreamEnd
  | _, 0 => ([], .fuelOut)
  | ds, fuel + 1 =>
    match ds.next_raw with
    | (.ok none, _) => ([], .finished)
    | (.error c, _) => ([], .readErr c)
    | (.ok (some block), ds') =>
      let (blocks, e) := runStream ds' fuel
      (block :: blocks, e)

/-- Result of `Transfer::check_ack` (success, or which classified I/O error
it builds; the formatted message strings are abstracted to the data they
embed). -/
inductive CheckAck where
  | ok
  | peerErr (code : Nat) (message : List Nat)
  | unexpected (p : Packet)
deriving DecidableEq, Repr

/-- Model of `Transfer::check_ack`: an `Ack` whose block number equals
`current_block` passes; a received `Error` packet maps to a peer error; any
other packet (including an `Ack` for a different block) is unexpected. -/
def Transfer.check_ack (reply : Packet) (current_block : Nat) : CheckAck :=
  match reply with
  | .Ack a => if a.block_nr = current_block then .ok else .unexpected reply
  | .Error e => .peerErr e.error_code e.message
  | p => .unexpected p

/-- One packet handed to the socket's send path during a transfer. -/
inductive Sent where
  | dataFrame (bytes : List Nat)
  | oackPacket (o : OptionAck)
  | errPacket (code : Nat) (message : List Nat)
deriving DecidableEq, Repr

/-- Classified failure of `Transfer::finish` (which `IoError` it builds). -/
inductive FinishErr where
  | transport
  | sourceRead (c : Nat)
  | peer (code : Nat) (message : List Nat)
  | unexpectedPacket (p : Packet)
deriving DecidableEq, Repr

/-- The send-block/await-ack `while let` loop of `Transfer::finish`.
`replies` models the sequence of packets successive
`get_next_message_from` calls deliver; exhausting it models a failing
transport receive (`.transport`).  `err_note_send_fails` models whether the
best-effort error-notification send fails; the source discards that result
(`let _may_fail = ...`), which the `let _may_fail` below mirrors. -/
def finishLoop (ds : DataStream) (replies : List Packet)
    (err_note_send_fails : Bool) : List Sent × Except FinishErr Unit :=
  match ds.next_raw with
  | (.ok none, _) => ([], .ok ())
  | (.error e, _) =>
    let _may_fail := err_note_send_fails
    ([.errPacket 0 (strBytes "Unexpected IO error")], .error (.sourceRead e))
  | (.ok (some bytes), ds') =>
    match replies with
    | [] => ([.dataFrame bytes], .error .transport)
    | reply :: rest =>
      match Transfer.check_ack reply ds'.block_counter with
      | .ok =>
        let (sent, res) := finishLoop ds' rest err_note_send_fails
        (.dataFrame bytes :: sent, res)
      | .peerErr code msg => ([.dataFrame bytes], .error (.peer code msg))
      | .unexpected p => ([.dataFrame bytes], .error (.unexpectedPacket p))

/-- Model of `server::Transfer`: the DataStream plus the negotiated
OptionAck (the per-transfer socket is modelled at the `finish` call). -/
structure Transfer where
  source : DataStream
  options : OptionAck
deriving DecidableEq, Repr

/-- Model of `Transfer::new`: blocksize defaults to 512 when the OptionAck
carries none. -/
def Transfer.new (source : Source) (options : OptionAck) : Transfer :=
  ⟨DataStream.new source (options.blocksize.getD 512), options⟩

/-- Model of `Transfer::finish`: optional OptionAck round (awaiting an Ack
for block 0), then the streaming loop. -/
def Transfer.finish (t : Transfer) (replies : List Packet)
    (err_note_send_fails : Bool) : List Sent × Except FinishErr Unit :=
  if !t.options.is_empty then
    match replies with
    | [] => ([.oackPacket t.options], .error .transport)
    | reply :: rest =>
      match Transfer.check_ack reply 0 with
      | .ok =>
        let (sent, res) := finishLoop t.source rest err_note_send_fails
        (.oackPacket t.options :: sent, res)
      | .peerErr code msg => ([.oackPacket t.options], .error (.peer code msg))
      | .unexpected p => ([.oackPacket t.options], .error (.unexpectedPacket p))
  else finishLoop t.source replies err_note_send_fails

/-- Outcome of the socket wrapper's send path. -/
inductive SendOutcome where
  | panicked
  | ioFailed
  | sentOk
deriving DecidableEq, Repr

/-- Model of `TFTPSocket::send_message_optionally_to` (and thus of
`send_message` and `send_message_to`, which both delegate to it): encode the
packet into the socket's internal buffer of `buffer_len` bytes and
`.unwrap()` the result, so a `BufferTooSmall` encoding error panics; then
hand the encoded length to the UDP send (`udp_send` models
`UdpSocket::send`/`send_to`: bytes accepted, or an I/O error) and report
success only if the whole message was accepted. -/
def send_message_optionally_to (message : Packet) (buffer_len : Nat)
    (udp_send : Nat → Except Unit Nat) : SendOutcome :=
  match (message.to_bytes ⟨List.replicate buffer_len 0, false⟩).1 with
  | .error _ => .panicked
  | .ok bytes =>
    match udp_send bytes with
    | .error _ => .ioFailed
    | .ok bytes_send => if bytes_send = bytes then .sentOk else .ioFailed

/-! Helper lemmas. -/

theorem tryReadExact_none (l : List Nat) (B : Nat) :
    tryReadExact ⟨l, none⟩ B = .ok (l.take B, ⟨l.drop B, none⟩) := by
  induction B using Nat.strong_induction_on generalizing l with
  | _ B IH =>
    rw [tryReadExact.eq_def]
    by_cases hB : B = 0
    · subst hB
      simp
    · rw [if_neg hB]
      cases l with
      | nil => simp
      | cons b rest =>
        simp only []
        rw [IH (B - min B (b :: rest).length) (by simp only [List.length_cons]; omega)]
        by_cases hlen : B ≤ (b :: rest).length
        · have hmin : min B (b :: rest).length = B := min_eq_left hlen
          simp only [hmin, Nat.sub_self, List.take_zero, List.drop_zero, List.append_nil]
        · have hmin : min B (b :: rest).length = (b :: rest).length :=
            min_eq_right (by omega)
          simp only [hmin, List.drop_length, List.take_length, List.take_nil,
            List.drop_nil, List.append_nil]
          rw [List.take_of_length_le (by omega), List.drop_eq_nil_of_le (by omega)]

theorem tryReadExact_some (l : List Nat) (c B : Nat) :
    tryReadExact ⟨l, some c⟩ B =
      if B ≤ l.length then .ok (l.take B, ⟨l.drop B, some c⟩) else .error c := by
  induction B using Nat.strong_induction_on generalizing l with
  | _ B IH =>
    rw [tryReadExact.eq_def]
    by_cases hB : B = 0
    · subst hB
      simp
    · rw [if_neg hB]
      cases l with
      | nil =>
        simp only [List.length_nil]
        rw [if_neg (by omega)]
      | cons b rest =>
        simp only []
        rw [IH (B - min B (b :: rest).length) (by simp only [List.length_cons]; omega)]
        by_cases hlen : B ≤ (b :: rest).length
        · have hmin : min B (b :: rest).length = B := min_eq_left hlen
          rw [if_pos hlen]
          simp only [hmin, Nat.sub_self, Nat.zero_le, if_pos, List.take_zero,
            List.drop_zero, List.append_nil]
        · have hmin : min B (b :: rest).length = (b :: rest).length :=
            min_eq_right (by omega)
          rw [if_neg hlen]
          simp only [hmin, List.drop_length, List.length_nil]
          rw [if_neg (by omega)]


/-- Invariant of a `BufferWriter` run over a buffer of length `len` after a
total of `written` bytes have been requested: no out-of-bounds write
happened, the cursor stays in bounds, without overflow the cursor equals the
total requested, and after overflow the writer is saturated at `len`. -/
def BufferWriter.Inv (w : BufferWriter) (len written : Nat) : Prop :=
  w.buff.data.length = len ∧ w.buff.oob = false ∧ w.size ≤ len ∧
    (w.overflowed = false → w.size = written) ∧ (w.overflowed = true → w.size = len)

theorem BufferWriter.inv_new (buf : WBuf) (h : buf.oob = false) :
    (BufferWriter.new buf).Inv buf.data.length 0 :=
  ⟨rfl, h, Nat.zero_le _, fun _ => rfl, fun hov => by simp [BufferWriter.new] at hov⟩

theorem BufferWriter.inv_push_bytes (w : BufferWriter) (len written : Nat)
    (bytes : List Nat) (h : w.Inv len written) :
    (w.push_bytes bytes).Inv len (written + bytes.length) := by
  obtain ⟨hlen, hoob, hsz, hok, hovf⟩ := h
  simp only [BufferWriter.Inv, BufferWriter.push_bytes, WBuf.copyFromSlice]
  rw [if_pos (by
    simp only [List.length_take, Bool.and_eq_true, beq_iff_eq, decide_eq_true_eq]
    omega)]
  dsimp only
  refine ⟨by simp only [List.length_append, List.length_take, List.length_drop]; omega,
    hoob, by omega, ?_, ?_⟩
  · intro hov
    simp only [Bool.or_eq_false_iff, decide_eq_false_iff_not, Nat.not_lt] at hov
    obtain ⟨hov1, hov2⟩ := hov
    have := hok hov1
    omega
  · intro hov
    rcases Bool.or_eq_true_iff.mp hov with hov1 | hov2
    · have := hovf hov1
      omega
    · simp only [decide_eq_true_eq] at hov2
      omega

theorem BufferWriter.inv_push_byte (w : BufferWriter) (len written : Nat)
    (byte : Nat) (h : w.Inv len written) :
    (w.push_byte byte).Inv len (written + 1) := by
  obtain ⟨hlen, hoob, hsz, hok, hovf⟩ := h
  simp only [BufferWriter.Inv, BufferWriter.push_byte, WBuf.setByte]
  by_cases hc : w.size < w.buff.data.length
  · rw [if_pos hc, if_pos hc]
    dsimp only
    refine ⟨by simp only [List.length_set]; omega, hoob, by omega, ?_, ?_⟩
    · intro hov
      have := hok hov
      omega
    · intro hov
      have := hovf hov
      omega
  · rw [if_neg hc]
    dsimp only
    refine ⟨hlen, hoob, hsz, fun hc2 => by simp at hc2, fun _ => by omega⟩

theorem BufferWriter.inv_writeFmtPieces (ps : List (List Nat)) :
    ∀ (w : BufferWriter) (len written : Nat), w.Inv len written →
    (w.writeFmtPieces ps).Inv len (written + (ps.map List.length).sum) := by
  induction ps with
  | nil =>
    intro w len written h
    simpa [BufferWriter.writeFmtPieces] using h
  | cons p rest IH =>
    intro w len written h
    simp only [BufferWriter.writeFmtPieces, List.map_cons, List.sum_cons]
    have h2 := BufferWriter.inv_push_bytes w len written p h
    by_cases hov : (w.push_bytes p).overflowed
    · rw [if_pos hov]
      obtain ⟨hlen, hoob, hsz, hok, hovf⟩ := h2
      refine ⟨hlen, hoob, hsz, fun hc => absurd hov (by simp [hc]), fun _ => hovf hov⟩
    · rw [if_neg hov]
      have h3 := IH (w.push_bytes p) len (written + p.length) h2
      have harith : written + p.length + (rest.map List.length).sum
          = written + (p.length + (rest.map List.length).sum) := by omega
      rwa [harith] at h3

theorem u16be_length (n : Nat) : (u16be n).length = 2 := rfl

/-- Outcome shape shared by `Request::to_bytes` and `OptionAck::to_bytes`:
given the writer invariant at the total requested size, the returned buffer
is intact and a too-small buffer yields `BufferTooSmall`. -/
theorem BufferWriter.finishSpec (w : BufferWriter) (len total : Nat)
    (h : w.Inv len total) (res : Except TftpError Nat × WBuf)
    (hres : res = if w.overflowed
      then ((Except.error TftpError.BufferTooSmall : Except TftpError Nat), w.buff)
      else (.ok w.size, w.buff)) :
    res.2.oob = false ∧ res.2.data.length = len
    ∧ (len < total → res.1 = .error .BufferTooSmall) := by
  obtain ⟨hl, ho, hs, hnov, hovf⟩ := h
  by_cases hc : w.overflowed = true
  · simp only [hc, if_true, reduceIte] at hres
    subst hres
    exact ⟨ho, hl, fun _ => rfl⟩
  · have hcf : w.overflowed = false := by simpa using hc
    simp only [hcf, Bool.false_eq_true, if_false, reduceIte] at hres
    subst hres
    refine ⟨ho, hl, fun hlt => ?_⟩
    have hsz2 := hnov hcf
    exact absurd hlt (by omega)

theorem request_to_bytes_spec (r : Request) (buf : WBuf) (hoob : buf.oob = false) :
    (r.to_bytes buf).2.oob = false
    ∧ (r.to_bytes buf).2.data.length = buf.data.length
    ∧ (buf.data.length < r.encodedSize → (r.to_bytes buf).1 = .error .BufferTooSmall) := by
  obtain ⟨isr, fn, bs, its, ts, uo⟩ := r
  have hoctets : (strBytes "octets" ++ [0]).length = 7 := by decide
  have hblk : (strBytes "blksize" ++ [0]).length = 8 := by decide
  have htim : (strBytes "timeout" ++ [0]).length = 8 := by decide
  have htsz : (strBytes "tsize" ++ [0, 48, 0]).length = 8 := by decide
  have i0 := BufferWriter.inv_new buf hoob
  have i1 := BufferWriter.inv_push_bytes _ _ _
    (u16be (Request.mk isr fn bs its ts uo).opcodeNat) i0
  have i2 := BufferWriter.inv_push_bytes _ _ _ fn i1
  have i3 := BufferWriter.inv_push_byte _ _ _ 0 i2
  have i4 := BufferWriter.inv_push_bytes _ _ _ (strBytes "octets" ++ [0]) i3
  simp only [Request.to_bytes]
  cases bs with
  | none =>
    cases ts with
    | none =>
      cases its with
      | false =>
        have hT : (0 + (u16be (Request.mk isr fn none false none uo).opcodeNat).length
            + fn.length + 1 + (strBytes "octets" ++ [0]).length)
            = (Request.mk isr fn none false none uo).encodedSize := by
          simp only [u16be_length, hoctets, Request.encodedSize, Bool.false_eq_true,
            if_true, if_false]
          try omega
        rw [hT] at i4
        exact BufferWriter.finishSpec _ _ _ i4 _ rfl
      | true =>
        have i5 := BufferWriter.inv_push_bytes _ _ _ (strBytes "tsize" ++ [0, 48, 0]) i4
        have hT : (0 + (u16be (Request.mk isr fn none true none uo).opcodeNat).length
            + fn.length + 1 + (strBytes "octets" ++ [0]).length
            + (strBytes "tsize" ++ [0, 48, 0]).length)
            = (Request.mk isr fn none true none uo).encodedSize := by
          simp only [u16be_length, hoctets, htsz, Request.encodedSize, Bool.false_eq_true,
            if_true, if_false]
          try omega
        rw [hT] at i5
        exact BufferWriter.finishSpec _ _ _ i5 _ rfl
    | some tv =>
      have i5 := BufferWriter.inv_writeFmtPieces
        [strBytes "timeout" ++ [0], natDecimal tv, [0]] _ _ _ i4
      cases its with
      | false =>
        have hT : (0 + (u16be (Request.mk isr fn none false (some tv) uo).opcodeNat).length
            + fn.length + 1 + (strBytes "octets" ++ [0]).length
            + ([strBytes "timeout" ++ [0], natDecimal tv, [0]].map List.length).sum)
            = (Request.mk isr fn none false (some tv) uo).encodedSize := by
          simp only [u16be_length, hoctets, htim, Request.encodedSize, Bool.false_eq_true, if_true, if_false, List.map_cons,
            List.map_nil, List.sum_cons, List.sum_nil, List.length_cons, List.length_nil]
          try omega
        rw [hT] at i5
        exact BufferWriter.finishSpec _ _ _ i5 _ rfl
      | true =>
        have i6 := BufferWriter.inv_push_bytes _ _ _ (strBytes "tsize" ++ [0, 48, 0]) i5
        have hT : (0 + (u16be (Request.mk isr fn none true (some tv) uo).opcodeNat).length
            + fn.length + 1 + (strBytes "octets" ++ [0]).length
            + ([strBytes "timeout" ++ [0], natDecimal tv, [0]].map List.length).sum
            + (strBytes "tsize" ++ [0, 48, 0]).length)
            = (Request.mk isr fn none true (some tv) uo).encodedSize := by
          simp only [u16be_length, hoctets, htim, htsz, Request.encodedSize, Bool.false_eq_true, if_true, if_false, List.map_cons,
            List.map_nil, List.sum_cons, List.sum_nil, List.length_cons, List.length_nil]
          try omega
        rw [hT] at i6
        exact BufferWriter.finishSpec _ _ _ i6 _ rfl
  | some bv =>
    have i5 := BufferWriter.inv_writeFmtPieces
      [strBytes "blksize" ++ [0], natDecimal bv, [0]] _ _ _ i4
    cases ts with
    | none =>
      cases its with
      | false =>
        have hT : (0 + (u16be (Request.mk isr fn (some bv) false none uo).opcodeNat).length
            + fn.length + 1 + (strBytes "octets" ++ [0]).length
            + ([strBytes "blksize" ++ [0], natDecimal bv, [0]].map List.length).sum)
            = (Request.mk isr fn (some bv) false none uo).encodedSize := by
          simp only [u16be_length, hoctets, hblk, Request.encodedSize, Bool.false_eq_true, if_true, if_false, List.map_cons,
            List.map_nil, List.sum_cons, List.sum_nil, List.length_cons, List.length_nil]
          try omega
        rw [hT] at i5
        exact BufferWriter.finishSpec _ _ _ i5 _ rfl
      | true =>
        have i6 := BufferWriter.inv_push_bytes _ _ _ (strBytes "tsize" ++ [0, 48, 0]) i5
        have hT : (0 + (u16be (Request.mk isr fn (some bv) true none uo).opcodeNat).length
            + fn.length + 1 + (strBytes "octets" ++ [0]).length
            + ([strBytes "blksize" ++ [0], natDecimal bv, [0]].map List.length).sum
            + (strBytes "tsize" ++ [0, 48, 0]).length)
            = (Request.mk isr fn (some bv) true none uo).encodedSize := by
          simp only [u16be_length, hoctets, hblk, htsz, Request.encodedSize, Bool.false_eq_true, if_true, if_false, List.map_cons,
            List.map_nil, List.sum_cons, List.sum_nil, List.length_cons, List.length_nil]
          try omega
        rw [hT] at i6
        exact BufferWriter.finishSpec _ _ _ i6 _ rfl
    | some tv =>
      have i6 := BufferWriter.inv_writeFmtPieces
        [strBytes "timeout" ++ [0], natDecimal tv, [0]] _ _ _ i5
      cases its with
      | false =>
        have hT : (0 + (u16be (Request.mk isr fn (some bv) false (some tv) uo).opcodeNat).length
            + fn.length + 1 + (strBytes "octets" ++ [0]).length
            + ([strBytes "blksize" ++ [0], natDecimal bv, [0]].map List.length).sum
            + ([strBytes "timeout" ++ [0], natDecimal tv, [0]].map List.length).sum)
            = (Request.mk isr fn (some bv) false (some tv) uo).encodedSize := by
          simp only [u16be_length, hoctets, hblk, htim, Request.encodedSize, Bool.false_eq_true, if_true, if_false, List.map_cons,
            List.map_nil, List.sum_cons, List.sum_nil, List.length_cons, List.length_nil]
          try omega
        rw [hT] at i6
        exact BufferWriter.finishSpec _ _ _ i6 _ rfl
      | true =>
        have i7 := BufferWriter.inv_push_bytes _ _ _ (strBytes "tsize" ++ [0, 48, 0]) i6
        have hT : (0 + (u16be (Request.mk isr fn (some bv) true (some tv) uo).opcodeNat).length
            + fn.length + 1 + (strBytes "octets" ++ [0]).length
            + ([strBytes "blksize" ++ [0], natDecimal bv, [0]].map List.length).sum
            + ([strBytes "timeout" ++ [0], natDecimal tv, [0]].map List.length).sum
            + (strBytes "tsize" ++ [0, 48, 0]).length)
            = (Request.mk isr fn (some bv) true (some tv) uo).encodedSize := by
          simp only [u16be_length, hoctets, hblk, htim, htsz, Request.encodedSize, Bool.false_eq_true, if_true, if_false, List.map_cons,
            List.map_nil, List.sum_cons, List.sum_nil, List.length_cons, List.length_nil]
          try omega
        rw [hT] at i7
        exact BufferWriter.finishSpec _ _ _ i7 _ rfl

theorem oack_to_bytes_spec (o : OptionAck) (buf : WBuf) (hoob : buf.oob = false) :
    (o.to_bytes buf).2.oob = false
    ∧ (o.to_bytes buf).2.data.length = buf.data.length
    ∧ (buf.data.length < o.encodedSize → (o.to_bytes buf).1 = .error .BufferTooSmall) := by
  obtain ⟨bs, trs, ts, uo⟩ := o
  have hblk : (strBytes "blksize" ++ [0]).length = 8 := by decide
  have htim : (strBytes "timeout" ++ [0]).length = 8 := by decide
  have htsz : (strBytes "tsize" ++ [0]).length = 6 := by decide
  have i0 := BufferWriter.inv_new buf hoob
  have i1 := BufferWriter.inv_push_bytes _ _ _ (u16be OpCode.OptionAck.toNat) i0
  simp only [OptionAck.to_bytes]
  cases bs with
  | none =>
    cases trs with
    | none =>
      cases ts with
      | none =>
        have hT : (0 + (u16be OpCode.OptionAck.toNat).length)
            = (OptionAck.mk none none none uo).encodedSize := by
          simp only [u16be_length, OptionAck.encodedSize]
        rw [hT] at i1
        exact BufferWriter.finishSpec _ _ _ i1 _ rfl
      | some tv =>
        have i2 := BufferWriter.inv_writeFmtPieces
          [strBytes "timeout" ++ [0], natDecimal tv, [0]] _ _ _ i1
        have hT : (0 + (u16be OpCode.OptionAck.toNat).length
            + ([strBytes "timeout" ++ [0], natDecimal tv, [0]].map List.length).sum)
            = (OptionAck.mk none none (some tv) uo).encodedSize := by
          simp only [u16be_length, htim, OptionAck.encodedSize, List.map_cons,
            List.map_nil, List.sum_cons, List.sum_nil, List.length_cons, List.length_nil]
          omega
        rw [hT] at i2
        exact BufferWriter.finishSpec _ _ _ i2 _ rfl
    | some trv =>
      have i2 := BufferWriter.inv_writeFmtPieces
        [strBytes "tsize" ++ [0], natDecimal trv, [0]] _ _ _ i1
      cases ts with
      | none =>
        have hT : (0 + (u16be OpCode.OptionAck.toNat).length
            + ([strBytes "tsize" ++ [0], natDecimal trv, [0]].map List.length).sum)
            = (OptionAck.mk none (some trv) none uo).encodedSize := by
          simp only [u16be_length, htsz, OptionAck.encodedSize, List.map_cons,
            List.map_nil, List.sum_cons, List.sum_nil, List.length_cons, List.length_nil]
          omega
        rw [hT] at i2
        exact BufferWriter.finishSpec _ _ _ i2 _ rfl
      | some tv =>
        have i3 := BufferWriter.inv_writeFmtPieces
          [strBytes "timeout" ++ [0], natDecimal tv, [0]] _ _ _ i2
        have hT : (0 + (u16be OpCode.OptionAck.toNat).length
            + ([strBytes "tsize" ++ [0], natDecimal trv, [0]].map List.length).sum
            + ([strBytes "timeout" ++ [0], natDecimal tv, [0]].map List.length).sum)
            = (OptionAck.mk none (some trv) (some tv) uo).encodedSize := by
          simp only [u16be_length, htsz, htim, OptionAck.encodedSize, List.map_cons,
            List.map_nil, List.sum_cons, List.sum_nil, List.length_cons, List.length_nil]
          omega
        rw [hT] at i3
        exact BufferWriter.finishSpec _ _ _ i3 _ rfl
  | some bv =>
    have i2 := BufferWriter.inv_writeFmtPieces
      [strBytes "blksize" ++ [0], natDecimal bv, [0]] _ _ _ i1
    cases trs with
    | none =>
      cases ts with
      | none =>
        have hT : (0 + (u16be OpCode.OptionAck.toNat).length
            + ([strBytes "blksize" ++ [0], natDecimal bv, [0]].map List.length).sum)
            = (OptionAck.mk (some bv) none none uo).encodedSize := by
          simp only [u16be_length, hblk, OptionAck.encodedSize, List.map_cons,
            List.map_nil, List.sum_cons, List.sum_nil, List.length_cons, List.length_nil]
          omega
        rw [hT] at i2
        exact BufferWriter.finishSpec _ _ _ i2 _ rfl
      | some tv =>
        have i3 := BufferWriter.inv_writeFmtPieces
          [strBytes "timeout" ++ [0], natDecimal tv, [0]] _ _ _ i2
        have hT : (0 + (u16be OpCode.OptionAck.toNat).length
            + ([strBytes "blksize" ++ [0], natDecimal bv, [0]].map List.length).sum
            + ([strBytes "timeout" ++ [0], natDecimal tv, [0]].map List.length).sum)
            = (OptionAck.mk (some bv) none (some tv) uo).encodedSize := by
          simp only [u16be_length, hblk, htim, OptionAck.encodedSize, List.map_cons,
            List.map_nil, List.sum_cons, List.sum_nil, List.length_cons, List.length_nil]
          omega
        rw [hT] at i3
        exact BufferWriter.finishSpec _ _ _ i3 _ rfl
    | some trv =>
      have i3 := BufferWriter.inv_writeFmtPieces
        [strBytes "tsize" ++ [0], natDecimal trv, [0]] _ _ _ i2
      cases ts with
      | none =>
        have hT : (0 + (u16be OpCode.OptionAck.toNat).length
            + ([strBytes "blksize" ++ [0], natDecimal bv, [0]].map List.length).sum
            + ([strBytes "tsize" ++ [0], natDecimal trv, [0]].map List.length).sum)
            = (OptionAck.mk (some bv) (some trv) none uo).encodedSize := by
          simp only [u16be_length, hblk, htsz, OptionAck.encodedSize, List.map_cons,
            List.map_nil, List.sum_cons, List.sum_nil, List.length_cons, List.length_nil]
          omega
        rw [hT] at i3
        exact BufferWriter.finishSpec _ _ _ i3 _ rfl
      | some tv =>
        have i4 := BufferWriter.inv_writeFmtPieces
          [strBytes "timeout" ++ [0], natDecimal tv, [0]] _ _ _ i3
        have hT : (0 + (u16be OpCode.OptionAck.toNat).length
            + ([strBytes "blksize" ++ [0], natDecimal bv, [0]].map List.length).sum
            + ([strBytes "tsize" ++ [0], natDecimal trv, [0]].map List.length).sum
            + ([strBytes "timeout" ++ [0], natDecimal tv, [0]].map List.length).sum)
            = (OptionAck.mk (some bv) (some trv) (some tv) uo).encodedSize := by
          simp only [u16be_length, hblk, htsz, htim, OptionAck.encodedSize, List.map_cons,
            List.map_nil, List.sum_cons, List.sum_nil, List.length_cons, List.length_nil]
          omega
        rw [hT] at i4
        exact BufferWriter.finishSpec _ _ _ i4 _ rfl

/-- Shared helper: encoding any packet into a buffer too small for its full
encoding reports `BufferTooSmall`, performs no out-of-bounds write, and
leaves the buffer length unchanged. -/
theorem Packet.to_bytes_too_small (p : Packet) (buf : WBuf) (hoob : buf.oob = false)
    (hsmall : buf.data.length < p.encodedSize) :
    (p.to_bytes buf).1 = .error .BufferTooSmall
    ∧ (p.to_bytes buf).2.oob = false
    ∧ (p.to_bytes buf).2.data.length = buf.data.length := by
  cases p with
  | Ack a =>
    simp only [Packet.to_bytes, Packet.encodedSize] at hsmall ⊢
    rw [Ack.to_bytes, if_neg (by omega)]
    exact ⟨rfl, hoob, rfl⟩
  | Data d =>
    simp only [Packet.to_bytes, Packet.encodedSize] at hsmall ⊢
    rw [Data.to_bytes, if_pos (by omega)]
    exact ⟨rfl, hoob, rfl⟩
  | Error e =>
    simp only [Packet.to_bytes, Packet.encodedSize] at hsmall ⊢
    rw [Error.to_bytes, if_pos (by omega)]
    exact ⟨rfl, hoob, rfl⟩
  | Request r =>
    simp only [Packet.to_bytes, Packet.encodedSize] at hsmall ⊢
    obtain ⟨h1, h2, h3⟩ := request_to_bytes_spec r buf hoob
    exact ⟨h3 hsmall, h1, h2⟩
  | OptionAck o =>
    simp only [Packet.to_bytes, Packet.encodedSize] at hsmall ⊢
    obtain ⟨h1, h2, h3⟩ := oack_to_bytes_spec o buf hoob
    exact ⟨h3 hsmall, h1, h2⟩

/-- C5: for every packet value and every buffer too small to hold its full
encoding, `to_bytes` reports `BufferTooSmall`, never writes to any index at
or past the buffer's length (no out-of-bounds access is attempted, so the
Rust original cannot panic, and the buffer keeps its length); nothing is
claimed about the buffer's contents, which may have been partially
mutated. -/
theorem C5_encode_too_small (p : Packet) (buf : WBuf) (hoob : buf.oob = false)
    (hsmall : buf.data.length < p.encodedSize) :
    (p.to_bytes buf).1 = .error .BufferTooSmall
    ∧ (p.to_bytes buf).2.oob = false
    ∧ (p.to_bytes buf).2.data.length = buf.data.length :=
  Packet.to_bytes_too_small p buf hoob hsmall

theorem C5_witness :
    ((Packet.Data ⟨1, [1, 2, 3]⟩).to_bytes ⟨List.replicate 5 0, false⟩).1
        = .error .BufferTooSmall
    ∧ ((Packet.Data ⟨1, [1, 2, 3]⟩).to_bytes ⟨List.replicate 5 0, false⟩).2.oob = false
    ∧ ((Packet.Data ⟨1, [1, 2, 3]⟩).to_bytes ⟨List.replicate 5 0, false⟩).2.data.length
        = (WBuf.mk (List.replicate 5 0) false).data.length :=
  C5_encode_too_small (.Data ⟨1, [1, 2, 3]⟩) ⟨List.replicate 5 0, false⟩ rfl (by decide)

/-- C10: when a packet's encoding does not fit the socket wrapper's internal
buffer, `send_message_optionally_to` panics (it unwraps the `BufferTooSmall`
result of `to_bytes`) instead of returning an I/O error; and it returns `Ok`
only when `to_bytes` succeeded and the underlying UDP send accepted the
entire encoded packet. -/
theorem C10_send_unwrap_panics (p : Packet) (buffer_len : Nat)
    (udp_send : Nat → Except Unit Nat) (h : buffer_len < p.encodedSize) :
    send_message_optionally_to p buffer_len udp_send = .panicked
    ∧ ∀ (q : Packet) (bl : Nat) (udp : Nat → Except Unit Nat),
        send_message_optionally_to q bl udp = .sentOk →
        ∃ n, (q.to_bytes ⟨List.replicate bl 0, false⟩).1 = .ok n ∧ udp n = .ok n := by
  constructor
  · have henc := Packet.to_bytes_too_small p ⟨List.replicate buffer_len 0, false⟩ rfl
      (by simpa using h)
    unfold send_message_optionally_to
    rw [henc.1]
  · intro q bl udp hq
    unfold send_message_optionally_to at hq
    cases henc : (q.to_bytes ⟨List.replicate bl 0, false⟩).1 with
    | error e =>
      rw [henc] at hq
      simp at hq
    | ok n =>
      rw [henc] at hq
      simp only [] at hq
      cases hu : udp n with
      | error e =>
        rw [hu] at hq
        simp at hq
      | ok m =>
        rw [hu] at hq
        simp only [] at hq
        by_cases hm : m = n
        · subst hm
          exact ⟨m, rfl, hu⟩
        · rw [if_neg hm] at hq
          cases hq

/-! Step equations for the concrete evaluation of the Request option loop. -/

theorem rol_nil (bs : Option Nat) (its : Bool) (ts : Option Nat) (hu : Bool) :
    requestOptionsLoop [] bs its ts hu = .ok (bs, its, ts, hu) := by
  rw [requestOptionsLoop.eq_def]
  rfl

theorem rol_blksize_new (d name value rem : List Nat) (its : Bool) (ts : Option Nat)
    (hu : Bool) (bs : Nat)
    (h : get_option_pair d = .ok (some ((name, value), rem)))
    (hname : eqIgnoreAsciiCase name (strBytes "blksize") = true)
    (hv : parse_blocksize value = .ok bs) :
    requestOptionsLoop d none its ts hu = requestOptionsLoop rem (some bs) its ts hu := by
  rw [requestOptionsLoop.eq_def, h]
  simp only [hname, if_true, reduceIte, Option.isSome_none, Bool.false_eq_true, if_false, hv]

theorem rol_blksize_repeat (d name value rem : List Nat) (b0 : Nat) (its : Bool)
    (ts : Option Nat) (hu : Bool)
    (h : get_option_pair d = .ok (some ((name, value), rem)))
    (hname : eqIgnoreAsciiCase name (strBytes "blksize") = true) :
    requestOptionsLoop d (some b0) its ts hu = .error .OptionRepeated := by
  rw [requestOptionsLoop.eq_def, h]
  simp only [hname, if_true, reduceIte, Option.isSome_some]

theorem rol_unknown (d name value rem : List Nat) (bs : Option Nat) (its : Bool)
    (ts : Option Nat) (hu : Bool)
    (h : get_option_pair d = .ok (some ((name, value), rem)))
    (h1 : eqIgnoreAsciiCase name (strBytes "blksize") = false)
    (h2 : eqIgnoreAsciiCase name (strBytes "tsize") = false)
    (h3 : eqIgnoreAsciiCase name (strBytes "timeout") = false) :
    requestOptionsLoop d bs its ts hu = requestOptionsLoop rem bs its ts true := by
  rw [requestOptionsLoop.eq_def, h]
  simp only [h1, h2, h3, Bool.false_eq_true, if_false, reduceIte]

theorem C10_witness :
    send_message_optionally_to (.Data ⟨1, [1, 2, 3]⟩) 4 (fun n => .ok n) = .panicked
    ∧ ∀ (q : Packet) (bl : Nat) (udp : Nat → Except Unit Nat),
        send_message_optionally_to q bl udp = .sentOk →
        ∃ n, (q.to_bytes ⟨List.replicate bl 0, false⟩).1 = .ok n ∧ udp n = .ok n :=
  C10_send_unwrap_panics (.Data ⟨1, [1, 2, 3]⟩) 4 (fun n => .ok n) (by decide)

/-- C1 (code bug): encode-then-decode is not the identity, at two points.
`Ack::to_bytes` stamps `OpCode::Error as u16` (5) instead of the
Acknowledgement opcode (4), so the four bytes of an encoded `Ack` with block
number 1 decode as a malformed Error packet (`BadFormatting`: empty message
region with no terminator), not as the original Ack.  And
`Request::to_bytes` writes the mode string "octets", which the crate's own
decoder rejects (it requires "octet" up to ASCII case), so an encoded read
request for file "a" fails to decode with `BadFormatting` as well. -/
theorem C1_roundtrip_fails :
    Ack.to_bytes ⟨1⟩ ⟨[0, 0, 0, 0], false⟩ = (.ok 4, ⟨[0, 5, 0, 1], false⟩)
    ∧ Packet.from_bytes [0, 5, 0, 1] = .error .BadFormatting
    ∧ Request.to_bytes ⟨true, [97], none, false, none, []⟩ ⟨List.replicate 11 0, false⟩
        = (.ok 11, ⟨[0, 1, 97, 0, 111, 99, 116, 101, 116, 115, 0], false⟩)
    ∧ Packet.from_bytes [0, 1, 97, 0, 111, 99, 116, 101, 116, 115, 0]
        = .error .BadFormatting := by
  refine ⟨by decide, by decide, by decide, ?_⟩
  have hreq : Request.from_bytes_skip_opcode_check
      [0, 1, 97, 0, 111, 99, 116, 101, 116, 115, 0] true = .error .BadFormatting := by
    unfold Request.from_bytes_skip_opcode_check
    rw [show printable_ascii_str_from_u8
        (List.drop 2 [0, 1, 97, 0, 111, 99, 116, 101, 116, 115, 0])
        = .ok ([97], [111, 99, 116, 101, 116, 115, 0]) from by decide]
    simp only []
    rw [show printable_ascii_str_from_u8 [111, 99, 116, 101, 116, 115, 0]
        = .ok ([111, 99, 116, 101, 116, 115], []) from by decide]
    simp only []
    rw [rol_nil]
    decide
  unfold Packet.from_bytes
  rw [if_neg (by decide)]
  rw [show OpCode.tryFrom
      (List.getD [0, 1, 97, 0, 111, 99, 116, 101, 116, 115, 0] 0 0 * 256
        + List.getD [0, 1, 97, 0, 111, 99, 116, 101, 116, 115, 0] 1 0)
      = .ok .ReadRequest from by decide]
  rw [hreq]
  rfl

/-- C6: `blksize` option parsing rejects 7 and 65465 with `InvalidBlockSize`
carrying the offending value, accepts 8 and 65464, reports `BadFormatting`
for a non-numeric value, and a request packet in which `blksize` appears
twice decodes to `OptionRepeated`. -/
theorem C6_blocksize_parsing :
    parse_blocksize (strBytes "7") = .error (.InvalidBlockSize 7)
    ∧ parse_blocksize (strBytes "65465") = .error (.InvalidBlockSize 65465)
    ∧ parse_blocksize (strBytes "8") = .ok 8
    ∧ parse_blocksize (strBytes "65464") = .ok 65464
    ∧ parse_blocksize (strBytes "8a") = .error .BadFormatting
    ∧ Packet.from_bytes
        ([0, 1, 102, 0, 111, 99, 116, 101, 116, 0]
          ++ [98, 108, 107, 115, 105, 122, 101, 0, 56, 0]
          ++ [98, 108, 107, 115, 105, 122, 101, 0, 57, 0])
        = .error .OptionRepeated := by
  refine ⟨by decide, by decide, by decide, by decide, by decide, ?_⟩
  have hloop : requestOptionsLoop
      [98, 108, 107, 115, 105, 122, 101, 0, 56, 0, 98, 108, 107, 115, 105, 122, 101, 0, 57, 0]
      none false none false = .error .OptionRepeated := by
    rw [rol_blksize_new _ [98, 108, 107, 115, 105, 122, 101] [56]
        [98, 108, 107, 115, 105, 122, 101, 0, 57, 0] false none false 8
        (by decide) (by decide) (by decide)]
    exact rol_blksize_repeat _ [98, 108, 107, 115, 105, 122, 101] [57] [] 8 false none false
      (by decide) (by decide)
  have hreq : Request.from_bytes_skip_opcode_check
      [0, 1, 102, 0, 111, 99, 116, 101, 116, 0, 98, 108, 107, 115, 105, 122, 101, 0, 56, 0,
        98, 108, 107, 115, 105, 122, 101, 0, 57, 0] true = .error .OptionRepeated := by
    unfold Request.from_bytes_skip_opcode_check
    rw [show printable_ascii_str_from_u8
        (List.drop 2 [0, 1, 102, 0, 111, 99, 116, 101, 116, 0, 98, 108, 107, 115, 105, 122,
          101, 0, 56, 0, 98, 108, 107, 115, 105, 122, 101, 0, 57, 0])
        = .ok ([102], [111, 99, 116, 101, 116, 0, 98, 108, 107, 115, 105, 122, 101, 0, 56, 0,
          98, 108, 107, 115, 105, 122, 101, 0, 57, 0]) from by decide]
    simp only []
    rw [show printable_ascii_str_from_u8 [111, 99, 116, 101, 116, 0, 98, 108, 107, 115, 105,
          122, 101, 0, 56, 0, 98, 108, 107, 115, 105, 122, 101, 0, 57, 0]
        = .ok ([111, 99, 116, 101, 116], [98, 108, 107, 115, 105, 122, 101, 0, 56, 0,
          98, 108, 107, 115, 105, 122, 101, 0, 57, 0]) from by decide]
    simp only []
    rw [hloop]
  show Packet.from_bytes [0, 1, 102, 0, 111, 99, 116, 101, 116, 0, 98, 108, 107, 115, 105,
    122, 101, 0, 56, 0, 98, 108, 107, 115, 105, 122, 101, 0, 57, 0] = .error .OptionRepeated
  unfold Packet.from_bytes
  rw [if_neg (by decide)]
  rw [show OpCode.tryFrom
      (List.getD [0, 1, 102, 0, 111, 99, 116, 101, 116, 0, 98, 108, 107, 115, 105, 122, 101,
        0, 56, 0, 98, 108, 107, 115, 105, 122, 101, 0, 57, 0] 0 0 * 256
        + List.getD [0, 1, 102, 0, 111, 99, 116, 101, 116, 0, 98, 108, 107, 115, 105, 122,
          101, 0, 56, 0, 98, 108, 107, 115, 105, 122, 101, 0, 57, 0] 1 0)
      = .ok .ReadRequest from by decide]
  rw [hreq]
  rfl

/-- Model of `OptionsIterator` as the list of items the iterator yields.
After yielding an `Err` the Rust iterator does not advance its cursor and
would yield the same `Err` forever; consumers stop at the first error, so
the list model ends at the first error item. -/
def optionsIterList (buff : List Nat) : List (Except TftpError (List Nat × List Nat)) :=
  match h : get_option_pair buff with
  | .ok (some (pair, remainder)) => .ok pair :: optionsIterList remainder
  | .error e => [.error e]
  | .ok none => []
termination_by buff.length
decreasing_by exact get_option_pair_rem_lt _ _ _ h

/-- The filter of `OptionsIterator::unknown`: keep every error item and
every pair whose name is not byte-for-byte `blksize`, `timeout` or `tsize`.
The comparison in the source is exact (`match *name`), not
case-insensitive. -/
def unknownPred (x : Except TftpError (List Nat × List Nat)) : Bool :=
  match x with
  | .ok (name, _) =>
    !(name == strBytes "blksize" || name == strBytes "timeout" || name == strBytes "tsize")
  | .error _ => true

/-- Model of `Request::unknown_options()`. -/
def Request.unknownOptions (r : Request) :
    List (Except TftpError (List Nat × List Nat)) :=
  (optionsIterList r.unknown_options).filter unknownPred

/-- Model of `OptionAck::unknown_options()`. -/
def OptionAck.unknownOptions (o : OptionAck) :
    List (Except TftpError (List Nat × List Nat)) :=
  (optionsIterList o.unknown_options).filter unknownPred

/-- Pure scan of an option region into its (name, value) pairs; succeeds
exactly when every pair in the region is well formed. -/
def scanPairs (buff : List Nat) : Except TftpError (List (List Nat × List Nat)) :=
  match h : get_option_pair buff with
  | .error e => .error e
  | .ok none => .ok []
  | .ok (some (pair, remainder)) =>
    match scanPairs remainder with
    | .error e => .error e
    | .ok ps => .ok (pair :: ps)
termination_by buff.length
decreasing_by exact get_option_pair_rem_lt _ _ _ h

theorem oil_nil : optionsIterList [] = [] := by
  rw [optionsIterList.eq_def]
  rfl

theorem oil_cons (d : List Nat) (pair : List Nat × List Nat) (rem : List Nat)
    (h : get_option_pair d = .ok (some (pair, rem))) :
    optionsIterList d = .ok pair :: optionsIterList rem := by
  rw [optionsIterList.eq_def, h]

theorem sp_nil : scanPairs [] = .ok [] := by
  rw [scanPairs.eq_def]
  rfl

theorem sp_cons (d : List Nat) (pair : List Nat × List Nat) (rem : List Nat)
    (ps : List (List Nat × List Nat))
    (h : get_option_pair d = .ok (some (pair, rem)))
    (hrem : scanPairs rem = .ok ps) :
    scanPairs d = .ok (pair :: ps) := by
  rw [scanPairs.eq_def, h]
  simp only []
  rw [hrem]

theorem optionsIterList_of_scanPairs (b : List Nat) (ps : List (List Nat × List Nat))
    (h : scanPairs b = .ok ps) : optionsIterList b = ps.map Except.ok := by
  have key : ∀ n (b : List Nat) ps, b.length ≤ n → scanPairs b = .ok ps →
      optionsIterList b = ps.map Except.ok := by
    intro n
    induction n with
    | zero =>
      intro b ps hlen hscan
      have hb : b = [] := by
        cases b with
        | nil => rfl
        | cons x xs => simp at hlen
      subst hb
      rw [sp_nil] at hscan
      simp only [Except.ok.injEq] at hscan
      subst hscan
      exact oil_nil
    | succ n IH =>
      intro b ps hlen hscan
      cases hgop : get_option_pair b with
      | error e =>
        rw [scanPairs.eq_def, hgop] at hscan
        simp at hscan
      | ok o =>
        cases o with
        | none =>
          rw [scanPairs.eq_def, hgop] at hscan
          simp only [Except.ok.injEq] at hscan
          subst hscan
          rw [optionsIterList.eq_def, hgop]
          rfl
        | some pr =>
          obtain ⟨pair, rem⟩ := pr
          rw [scanPairs.eq_def, hgop] at hscan
          simp only [] at hscan
          cases hrec : scanPairs rem with
          | error e =>
            rw [hrec] at hscan
            simp at hscan
          | ok qs =>
            rw [hrec] at hscan
            simp only [Except.ok.injEq] at hscan
            subst hscan
            have hlt := get_option_pair_rem_lt _ _ _ hgop
            rw [oil_cons _ _ _ hgop, IH rem qs (by omega) hrec]
            rfl
  exact key b.length b ps le_rfl h

theorem filter_map_ok (ps : List (List Nat × List Nat)) :
    (ps.map Except.ok).filter unknownPred
      = (ps.filter (fun pr => unknownPred (.ok pr))).map Except.ok := by
  induction ps with
  | nil => rfl
  | cons p rest IH =>
    simp only [List.map_cons, List.filter_cons]
    cases h : unknownPred (.ok p) with
    | false => simp only [h, Bool.false_eq_true, if_false, IH]
    | true => simp only [h, if_true, List.map_cons, IH]

/-- C7 (amended): for every decoded Request or OptionAck whose deferred
option region scans cleanly, `unknown_options()` yields exactly those
(name, value) pairs of the stored region whose names are not byte-for-byte
equal to `blksize`, `timeout` or `tsize`.  The iterator's filter is exact
(case-sensitive), unlike the case-insensitive recognition performed during
decoding, so a pair with a recognized name in a different case (for example
"BLKSIZE") is yielded. -/
theorem C7_unknown_options_case_sensitive (r : Request) (o : OptionAck)
    (ps qs : List (List Nat × List Nat))
    (hr : scanPairs r.unknown_options = .ok ps)
    (ho : scanPairs o.unknown_options = .ok qs) :
    r.unknownOptions = (ps.filter (fun pr => unknownPred (.ok pr))).map Except.ok
    ∧ o.unknownOptions = (qs.filter (fun pr => unknownPred (.ok pr))).map Except.ok := by
  constructor
  · rw [Request.unknownOptions, optionsIterList_of_scanPairs _ _ hr, filter_map_ok]
  · rw [OptionAck.unknownOptions, optionsIterList_of_scanPairs _ _ ho, filter_map_ok]

/-- C7 (counterexample to the original claim): a decoded read request whose
option region is "BLKSIZE\08\0foo\0bar\0" recognizes `BLKSIZE`
case-insensitively during decoding (blocksize 8), yet `unknown_options()`
still yields the pair ("BLKSIZE", "8"), because the iterator's filter
compares names case-sensitively.  The claim says a pair named "BLKSIZE"
must not be yielded. -/
theorem C7_counterexample :
    Packet.from_bytes
        [0, 1, 102, 0, 111, 99, 116, 101, 116, 0,
          66, 76, 75, 83, 73, 90, 69, 0, 56, 0, 102, 111, 111, 0, 98, 97, 114, 0]
      = .ok (.Request ⟨true, [102], some 8, false, none,
          [66, 76, 75, 83, 73, 90, 69, 0, 56, 0, 102, 111, 111, 0, 98, 97, 114, 0]⟩)
    ∧ Request.unknownOptions
        ⟨true, [102], some 8, false, none,
          [66, 76, 75, 83, 73, 90, 69, 0, 56, 0, 102, 111, 111, 0, 98, 97, 114, 0]⟩
      = [.ok ([66, 76, 75, 83, 73, 90, 69], [56]),
         .ok ([102, 111, 111], [98, 97, 114])] := by
  have hloop : requestOptionsLoop
      [66, 76, 75, 83, 73, 90, 69, 0, 56, 0, 102, 111, 111, 0, 98, 97, 114, 0]
      none false none false = .ok (some 8, false, none, true) := by
    rw [rol_blksize_new _ [66, 76, 75, 83, 73, 90, 69] [56]
        [102, 111, 111, 0, 98, 97, 114, 0] false none false 8
        (by decide) (by decide) (by decide)]
    rw [rol_unknown _ [102, 111, 111] [98, 97, 114] [] (some 8) false none false
        (by decide) (by decide) (by decide) (by decide)]
    exact rol_nil _ _ _ _
  constructor
  · have hreq : Request.from_bytes_skip_opcode_check
        [0, 1, 102, 0, 111, 99, 116, 101, 116, 0,
          66, 76, 75, 83, 73, 90, 69, 0, 56, 0, 102, 111, 111, 0, 98, 97, 114, 0] true
        = .ok ⟨true, [102], some 8, false, none,
            [66, 76, 75, 83, 73, 90, 69, 0, 56, 0, 102, 111, 111, 0, 98, 97, 114, 0]⟩ := by
      unfold Request.from_bytes_skip_opcode_check
      rw [show printable_ascii_str_from_u8
          (List.drop 2 [0, 1, 102, 0, 111, 99, 116, 101, 116, 0,
            66, 76, 75, 83, 73, 90, 69, 0, 56, 0, 102, 111, 111, 0, 98, 97, 114, 0])
          = .ok ([102], [111, 99, 116, 101, 116, 0,
            66, 76, 75, 83, 73, 90, 69, 0, 56, 0, 102, 111, 111, 0, 98, 97, 114, 0])
          from by decide]
      simp only []
      rw [show printable_ascii_str_from_u8 [111, 99, 116, 101, 116, 0,
            66, 76, 75, 83, 73, 90, 69, 0, 56, 0, 102, 111, 111, 0, 98, 97, 114, 0]
          = .ok ([111, 99, 116, 101, 116],
            [66, 76, 75, 83, 73, 90, 69, 0, 56, 0, 102, 111, 111, 0, 98, 97, 114, 0])
          from by decide]
      simp only []
      rw [hloop]
      decide
    unfold Packet.from_bytes
    rw [if_neg (by decide)]
    rw [show OpCode.tryFrom
        (List.getD [0, 1, 102, 0, 111, 99, 116, 101, 116, 0,
          66, 76, 75, 83, 73, 90, 69, 0, 56, 0, 102, 111, 111, 0, 98, 97, 114, 0] 0 0 * 256
          + List.getD [0, 1, 102, 0, 111, 99, 116, 101, 116, 0,
            66, 76, 75, 83, 73, 90, 69, 0, 56, 0, 102, 111, 111, 0, 98, 97, 114, 0] 1 0)
        = .ok .ReadRequest from by decide]
    rw [hreq]
    rfl
  · rw [Request.unknownOptions]
    rw [show (Request.mk true [102] (some 8) false none
        [66, 76, 75, 83, 73, 90, 69, 0, 56, 0, 102, 111, 111, 0, 98, 97, 114, 0]).unknown_options
        = [66, 76, 75, 83, 73, 90, 69, 0, 56, 0, 102, 111, 111, 0, 98, 97, 114, 0] from rfl]
    rw [oil_cons _ (([66, 76, 75, 83, 73, 90, 69], [56])) [102, 111, 111, 0, 98, 97, 114, 0]
        (by decide)]
    rw [oil_cons _ (([102, 111, 111], [98, 97, 114])) [] (by decide)]
    rw [oil_nil]
    decide

theorem C7_witness :
    scanPairs [66, 76, 75, 83, 73, 90, 69, 0, 56, 0, 102, 111, 111, 0, 98, 97, 114, 0]
        = .ok [([66, 76, 75, 83, 73, 90, 69], [56]), ([102, 111, 111], [98, 97, 114])]
    ∧ scanPairs [102, 111, 111, 0, 98, 97, 114, 0] = .ok [([102, 111, 111], [98, 97, 114])]
    ∧ (Request.unknownOptions
        ⟨true, [102], some 8, false, none,
          [66, 76, 75, 83, 73, 90, 69, 0, 56, 0, 102, 111, 111, 0, 98, 97, 114, 0]⟩
        = (([([66, 76, 75, 83, 73, 90, 69], [56]),
            ([102, 111, 111], [98, 97, 114])].filter
              (fun pr => unknownPred (.ok pr))).map Except.ok)
      ∧ OptionAck.unknownOptions ⟨none, none, none, [102, 111, 111, 0, 98, 97, 114, 0]⟩
        = (([([102, 111, 111], [98, 97, 114])].filter
              (fun pr => unknownPred (.ok pr))).map Except.ok)) := by
  have h2 : scanPairs [102, 111, 111, 0, 98, 97, 114, 0]
      = .ok [([102, 111, 111], [98, 97, 114])] :=
    sp_cons _ (([102, 111, 111], [98, 97, 114])) [] [] (by decide) sp_nil
  have h1 : scanPairs [66, 76, 75, 83, 73, 90, 69, 0, 56, 0, 102, 111, 111, 0, 98, 97, 114, 0]
      = .ok [([66, 76, 75, 83, 73, 90, 69], [56]), ([102, 111, 111], [98, 97, 114])] :=
    sp_cons _ (([66, 76, 75, 83, 73, 90, 69], [56])) [102, 111, 111, 0, 98, 97, 114, 0] _
      (by decide) h2
  exact ⟨h1, h2, C7_unknown_options_case_sensitive
    ⟨true, [102], some 8, false, none,
      [66, 76, 75, 83, 73, 90, 69, 0, 56, 0, 102, 111, 111, 0, 98, 97, 114, 0]⟩
    ⟨none, none, none, [102, 111, 111, 0, 98, 97, 114, 0]⟩ _ _ h1 h2⟩

theorem runStream_succ (ds : DataStream) (fuel : Nat) :
    runStream ds (fuel + 1) =
      match ds.next_raw with
      | (.ok none, _) => ([], .finished)
      | (.error c, _) => ([], .readErr c)
      | (.ok (some block), ds') =>
        let (blocks, e) := runStream ds' fuel
        (block :: blocks, e) := rfl

theorem tryReadExact_zero (s : Source) : tryReadExact s 0 = .ok ([], s) := by
  rw [tryReadExact.eq_def]
  rfl

theorem next_raw_not_finished (src : Source) (c B : Nat) :
    (DataStream.mk src c false B).next_raw
      = match tryReadExact src B with
        | .error e => (.error e, ⟨src, (c + 1) % 65536, true, B⟩)
        | .ok (payload, source2) =>
          (.ok (some (u16be OpCode.Data.toNat ++ u16be ((c + 1) % 65536) ++ payload)),
           ⟨source2, (c + 1) % 65536, decide (payload.length < B), B⟩) := by
  unfold DataStream.next_raw
  rw [if_neg Bool.false_ne_true]

theorem next_raw_finished (src : Source) (c B : Nat) :
    (DataStream.mk src c true B).next_raw = (.ok none, ⟨src, c, true, B⟩) := by
  unfold DataStream.next_raw
  rw [if_pos rfl]

theorem runStream_succ_none (ds ds2 : DataStream) (fuel : Nat)
    (h : ds.next_raw = (.ok none, ds2)) : runStream ds (fuel + 1) = ([], .finished) := by
  rw [runStream_succ, h]

theorem runStream_succ_err (ds ds2 : DataStream) (fuel e : Nat)
    (h : ds.next_raw = (.error e, ds2)) : runStream ds (fuel + 1) = ([], .readErr e) := by
  rw [runStream_succ, h]

theorem runStream_succ_some (ds ds2 : DataStream) (block : List Nat) (fuel : Nat)
    (h : ds.next_raw = (.ok (some block), ds2)) :
    runStream ds (fuel + 1)
      = (block :: (runStream ds2 fuel).1, (runStream ds2 fuel).2) := by
  rw [runStream_succ, h]

/-- Main counting lemma for `DataStream` over a non-failing source: with any
blocksize of at least 1, a source of `n` bytes yields `n / B` full frames
followed by one short terminal frame of `n % B` payload bytes, and the
stream then reports `None`. -/
theorem runStream_general (B : Nat) (hB : 1 ≤ B) :
    ∀ n (l : List Nat) (c : Nat), l.length = n →
    (runStream ⟨⟨l, none⟩, c, false, B⟩ (n / B + 2)).1.map List.length
        = List.replicate (n / B) (4 + B) ++ [4 + n % B]
    ∧ (runStream ⟨⟨l, none⟩, c, false, B⟩ (n / B + 2)).2 = .finished := by
  intro n
  induction n using Nat.strong_induction_on with
  | _ n IH =>
    intro l c hlen
    have hnr : (DataStream.mk ⟨l, none⟩ c false B).next_raw
        = (.ok (some (u16be OpCode.Data.toNat ++ u16be ((c + 1) % 65536) ++ l.take B)),
           ⟨⟨l.drop B, none⟩, (c + 1) % 65536,
             decide ((l.take B).length < B), B⟩) := by
      rw [next_raw_not_finished, tryReadExact_none]
    by_cases hcase : n < B
    · have hdiv : n / B = 0 := Nat.div_eq_of_lt hcase
      have hmod : n % B = n := Nat.mod_eq_of_lt hcase
      have hfin : decide ((l.take B).length < B) = true := by
        simp only [List.length_take, decide_eq_true_eq]
        omega
      rw [hfin] at hnr
      rw [hdiv, hmod]
      have hf : (0 : Nat) + 2 = (0 + 1) + 1 := rfl
      rw [hf, runStream_succ_some _ _ _ _ hnr,
        runStream_succ_none _ _ _ (next_raw_finished _ _ _)]
      refine ⟨?_, rfl⟩
      simp only [List.map_cons, List.map_nil, List.replicate_zero, List.nil_append]
      congr 1
      simp only [List.length_append, List.length_take, u16be_length]
      omega
    · have hBn : B ≤ n := by omega
      have hB0 : 0 < B := by omega
      have hfin : decide ((l.take B).length < B) = false := by
        simp only [List.length_take, decide_eq_false_iff_not]
        omega
      rw [hfin] at hnr
      rw [Nat.div_eq_sub_div hB0 hBn, Nat.mod_eq_sub_mod hBn]
      have hf : (n - B) / B + 1 + 2 = ((n - B) / B + 2) + 1 := by omega
      rw [hf, runStream_succ_some _ _ _ _ hnr]
      have hIH := IH (n - B) (by omega) (l.drop B) ((c + 1) % 65536)
        (by simp only [List.length_drop]; omega)
      refine ⟨?_, hIH.2⟩
      simp only [List.map_cons, hIH.1, List.replicate_succ, List.cons_append]
      congr 1
      simp only [List.length_append, List.length_take, u16be_length]
      omega

/-- C3: for every byte source of exactly N bytes and every blocksize B in
the valid range 8..=65464, driving `next_raw` to completion produces frames
whose payload lengths are: N / B full blocks of B bytes followed by one
terminal block of N mod B bytes (zero-length exactly when B divides N,
including N = 0) — i.e. ceil(N/B) blocks when B does not divide N, and
N / B + 1 blocks (one extra empty terminal block) when it does — after
which `next_raw` returns `None` (the run ends in `finished`). -/
theorem C3_datastream_block_count (l : List Nat) (B c : Nat)
    (h8 : 8 ≤ B) (h65 : B ≤ 65464) :
    ((runStream ⟨⟨l, none⟩, c, false, B⟩ (l.length / B + 2)).1.map List.length
        = List.replicate (l.length / B) (4 + B) ++ [4 + l.length % B])
    ∧ (runStream ⟨⟨l, none⟩, c, false, B⟩ (l.length / B + 2)).1.length
        = l.length / B + 1
    ∧ (runStream ⟨⟨l, none⟩, c, false, B⟩ (l.length / B + 2)).2 = .finished := by
  obtain ⟨h1, h2⟩ := runStream_general B (by omega) l.length l c rfl
  refine ⟨h1, ?_, h2⟩
  have := congrArg List.length h1
  simpa using this

theorem C3_witness :
    ((runStream ⟨⟨List.replicate 1000 7, none⟩, 0, false, 512⟩
        ((List.replicate 1000 7).length / 512 + 2)).1.map List.length
        = List.replicate ((List.replicate 1000 7).length / 512) (4 + 512)
          ++ [4 + (List.replicate 1000 7).length % 512])
    ∧ (runStream ⟨⟨List.replicate 1000 7, none⟩, 0, false, 512⟩
        ((List.replicate 1000 7).length / 512 + 2)).1.length
        = (List.replicate 1000 7).length / 512 + 1
    ∧ (runStream ⟨⟨List.replicate 1000 7, none⟩, 0, false, 512⟩
        ((List.replicate 1000 7).length / 512 + 2)).2 = .finished :=
  C3_datastream_block_count (List.replicate 1000 7) 512 0 (by omega) (by omega)

/-- C8: the DataStream block counter is 16-bit and wraps.  On a stream whose
counter stands at 65535 (its last produced block number) and which is not
finished, the next `next_raw` call stamps block number 0, not 65536: the
updated counter is 0 in every outcome, and a produced frame carries
bytes [0, 3, 0, 0] as its opcode and block-number header. -/
theorem C8_block_counter_wraps (ds : DataStream)
    (h1 : ds.block_counter = 65535) (h2 : ds.is_finished = false) :
    (ds.next_raw).2.block_counter = 0
    ∧ ∀ blk ds2, ds.next_raw = (.ok (some blk), ds2) → blk.take 4 = [0, 3, 0, 0] := by
  obtain ⟨src, c, fin, B⟩ := ds
  simp only at h1 h2
  subst h1
  subst h2
  rw [next_raw_not_finished]
  cases htr : tryReadExact src B with
  | error e =>
    constructor
    · norm_num
    · intro blk ds2 heq
      simp at heq
  | ok pr =>
    obtain ⟨payload, src2⟩ := pr
    constructor
    · norm_num
    · intro blk ds2 heq
      simp only [Prod.mk.injEq, Except.ok.injEq, Option.some.injEq] at heq
      obtain ⟨hblk, -⟩ := heq
      subst hblk
      norm_num [u16be, OpCode.toNat]

theorem C8_witness :
    ((DataStream.mk ⟨[], none⟩ 65535 false 8).next_raw).2.block_counter = 0
    ∧ ∀ blk ds2, (DataStream.mk ⟨[], none⟩ 65535 false 8).next_raw = (.ok (some blk), ds2)
        → blk.take 4 = [0, 3, 0, 0] :=
  C8_block_counter_wraps ⟨⟨[], none⟩, 65535, false, 8⟩ rfl rfl

theorem check_ack_ok_iff (reply : Packet) (b : Nat) :
    Transfer.check_ack reply b = .ok ↔ reply = .Ack ⟨b⟩ := by
  cases reply with
  | Ack a =>
    obtain ⟨nr⟩ := a
    by_cases hnr : nr = b
    · subst hnr
      simp [Transfer.check_ack]
    · simp only [Transfer.check_ack]
      rw [if_neg hnr]
      simp [hnr]
  | Data d => simp [Transfer.check_ack]
  | Request r => simp [Transfer.check_ack]
  | Error e => simp [Transfer.check_ack]
  | OptionAck o => simp [Transfer.check_ack]

theorem finishLoop_none (ds ds2 : DataStream) (replies : List Packet) (flag : Bool)
    (h : ds.next_raw = (.ok none, ds2)) :
    finishLoop ds replies flag = ([], .ok ()) := by
  unfold finishLoop
  rw [h]

theorem finishLoop_srcErr (ds ds2 : DataStream) (replies : List Packet) (flag : Bool)
    (e : Nat) (h : ds.next_raw = (.error e, ds2)) :
    finishLoop ds replies flag
      = ([.errPacket 0 (strBytes "Unexpected IO error")], .error (.sourceRead e)) := by
  unfold finishLoop
  rw [h]

theorem finishLoop_out_of_replies (ds ds2 : DataStream) (blk : List Nat) (flag : Bool)
    (h : ds.next_raw = (.ok (some blk), ds2)) :
    finishLoop ds [] flag = ([.dataFrame blk], .error .transport) := by
  unfold finishLoop
  rw [h]

theorem finishLoop_step_ok (ds ds2 : DataStream) (blk : List Nat) (reply : Packet)
    (rest : List Packet) (flag : Bool)
    (h : ds.next_raw = (.ok (some blk), ds2))
    (hack : Transfer.check_ack reply ds2.block_counter = .ok) :
    finishLoop ds (reply :: rest) flag
      = (.dataFrame blk :: (finishLoop ds2 rest flag).1, (finishLoop ds2 rest flag).2) := by
  conv_lhs => unfold finishLoop
  rw [h]
  simp only
  rw [hack]

theorem finishLoop_step_peer (ds ds2 : DataStream) (blk : List Nat) (reply : Packet)
    (rest : List Packet) (flag : Bool) (code : Nat) (msg : List Nat)
    (h : ds.next_raw = (.ok (some blk), ds2))
    (hack : Transfer.check_ack reply ds2.block_counter = .peerErr code msg) :
    finishLoop ds (reply :: rest) flag
      = ([.dataFrame blk], .error (.peer code msg)) := by
  unfold finishLoop
  rw [h]
  simp only
  rw [hack]

theorem finishLoop_step_unexpected (ds ds2 : DataStream) (blk : List Nat) (reply : Packet)
    (rest : List Packet) (flag : Bool) (p : Packet)
    (h : ds.next_raw = (.ok (some blk), ds2))
    (hack : Transfer.check_ack reply ds2.block_counter = .unexpected p) :
    finishLoop ds (reply :: rest) flag
      = ([.dataFrame blk], .error (.unexpectedPacket p)) := by
  unfold finishLoop
  rw [h]
  simp only
  rw [hack]

/-- C2: in the streaming loop, after sending a framed Data block (whose
header carries the stream's current block counter) the transfer awaits a
reply: an Ack whose block number equals the block just sent continues the
loop with the next block; an Ack with any other block number, any other
packet kind, or an Error packet makes the loop return an error having sent
no Data block beyond the one just sent (an Error reply surfaces the peer's
code and message). -/
theorem C2_streaming_ack_discipline (ds ds2 : DataStream) (blk : List Nat)
    (reply : Packet) (rest : List Packet) (flag : Bool)
    (h : ds.next_raw = (.ok (some blk), ds2)) :
    (∃ payload, blk = u16be OpCode.Data.toNat ++ u16be ds2.block_counter ++ payload)
    ∧ (reply = .Ack ⟨ds2.block_counter⟩ →
        finishLoop ds (reply :: rest) flag
          = (.dataFrame blk :: (finishLoop ds2 rest flag).1, (finishLoop ds2 rest flag).2))
    ∧ (reply ≠ .Ack ⟨ds2.block_counter⟩ →
        (finishLoop ds (reply :: rest) flag).1 = [.dataFrame blk]
        ∧ ∃ err, (finishLoop ds (reply :: rest) flag).2 = .error err)
    ∧ (∀ epkt, reply = .Error epkt →
        finishLoop ds (reply :: rest) flag
          = ([.dataFrame blk], .error (.peer epkt.error_code epkt.message)))
    ∧ (∀ (o : OptionAck) (replies2 : List Packet), o.is_empty = true →
        Transfer.finish ⟨ds, o⟩ replies2 flag = finishLoop ds replies2 flag) := by
  refine ⟨?_, ?_, ?_, ?_, ?_⟩
  · obtain ⟨src, c, fin, B⟩ := ds
    cases fin with
    | true =>
      rw [next_raw_finished] at h
      simp at h
    | false =>
      rw [next_raw_not_finished] at h
      cases htr : tryReadExact src B with
      | error e =>
        rw [htr] at h
        simp at h
      | ok pr =>
        obtain ⟨payload, src2⟩ := pr
        rw [htr] at h
        simp only [Prod.mk.injEq, Except.ok.injEq, Option.some.injEq] at h
        obtain ⟨hblk, hds2⟩ := h
        subst hds2
        exact ⟨payload, by rw [← hblk]⟩
  · intro hr
    exact finishLoop_step_ok _ _ _ _ _ _ h ((check_ack_ok_iff reply _).mpr hr)
  · intro hne
    cases hck : Transfer.check_ack reply ds2.block_counter with
    | ok => exact absurd ((check_ack_ok_iff reply _).mp hck) hne
    | peerErr code msg =>
      rw [finishLoop_step_peer _ _ _ _ _ _ _ _ h hck]
      exact ⟨rfl, _, rfl⟩
    | unexpected p =>
      rw [finishLoop_step_unexpected _ _ _ _ _ _ _ h hck]
      exact ⟨rfl, _, rfl⟩
  · intro epkt hrE
    subst hrE
    exact finishLoop_step_peer _ _ _ _ _ _ _ _ h rfl
  · intro o replies2 ho
    simp [Transfer.finish, ho]

theorem C2_witness :
    (finishLoop (DataStream.mk ⟨[9, 9, 9], none⟩ 0 false 512) [.Ack ⟨7⟩] false).1
        = [.dataFrame [0, 3, 0, 1, 9, 9, 9]]
    ∧ ∃ err, (finishLoop (DataStream.mk ⟨[9, 9, 9], none⟩ 0 false 512) [.Ack ⟨7⟩] false).2
        = .error err := by
  have h0 : (DataStream.mk ⟨[9, 9, 9], none⟩ 0 false 512).next_raw
      = (.ok (some [0, 3, 0, 1, 9, 9, 9]), ⟨⟨[], none⟩, 1, true, 512⟩) := by
    rw [next_raw_not_finished, tryReadExact_none]
    decide
  exact (C2_streaming_ack_discipline _ _ _ (.Ack ⟨7⟩) [] false h0).2.2.1 (by decide)

/-- C4: when the byte source fails with an I/O error during streaming, the
loop makes exactly one attempt to send an Error packet with code NotDefined
(0) and message "Unexpected IO error" to the peer, ignores whether that
send fails (the result is the same for both values of
`err_note_send_fails`), returns the original source I/O error, and the
DataStream is latched finished: any further `next_raw` call returns
`None`. -/
theorem C4_source_error_notify (ds ds2 : DataStream) (e : Nat)
    (replies : List Packet) (flag : Bool) (h : ds.next_raw = (.error e, ds2)) :
    finishLoop ds replies flag
      = ([.errPacket 0 (strBytes "Unexpected IO error")], .error (.sourceRead e))
    ∧ (∀ (o : OptionAck), o.is_empty = true →
        Transfer.finish ⟨ds, o⟩ replies flag
          = ([.errPacket 0 (strBytes "Unexpected IO error")], .error (.sourceRead e)))
    ∧ ds2.is_finished = true
    ∧ ds2.next_raw = (.ok none, ds2) := by
  refine ⟨finishLoop_srcErr _ _ replies flag _ h,
    fun o ho => by
      have hfl := finishLoop_srcErr ds ds2 replies flag e h
      simp [Transfer.finish, ho, hfl], ?_⟩
  obtain ⟨src, c, fin, B⟩ := ds
  cases fin with
  | true =>
    rw [next_raw_finished] at h
    simp at h
  | false =>
    rw [next_raw_not_finished] at h
    cases htr : tryReadExact src B with
    | ok pr =>
      obtain ⟨payload, src2⟩ := pr
      rw [htr] at h
      simp at h
    | error e2 =>
      rw [htr] at h
      simp only [Prod.mk.injEq, Except.error.injEq] at h
      obtain ⟨he, hds2⟩ := h
      subst he
      subst hds2
      exact ⟨rfl, next_raw_finished _ _ _⟩

theorem C4_witness :
    finishLoop (DataStream.mk ⟨[], some 7⟩ 0 false 8) [] true
      = ([.errPacket 0 (strBytes "Unexpected IO error")], .error (.sourceRead 7))
    ∧ (DataStream.mk ⟨[], some 7⟩ 1 true 8).is_finished = true
    ∧ (DataStream.mk ⟨[], some 7⟩ 1 true 8).next_raw
        = (.ok none, ⟨⟨[], some 7⟩, 1, true, 8⟩) := by
  have h0 : (DataStream.mk ⟨[], some 7⟩ 0 false 8).next_raw
      = (.error 7, ⟨⟨[], some 7⟩, 1, true, 8⟩) := by
    rw [next_raw_not_finished, tryReadExact_some]
    rw [if_neg (by decide)]
  obtain ⟨ha, -, hb, hc⟩ := C4_source_error_notify _ _ 7 [] true h0
  exact ⟨ha, hb, hc⟩

theorem next_raw_blocksizeZero (src : Source) (c : Nat) :
    (DataStream.mk src c false 0).next_raw
      = (.ok (some (u16be OpCode.Data.toNat ++ u16be ((c + 1) % 65536) ++ [])),
         ⟨src, (c + 1) % 65536, false, 0⟩) := by
  rw [next_raw_not_finished, tryReadExact_zero]
  rfl

/-- The empty Data frames a blocksize-0 stream with counter `c` emits next,
in order. -/
def zeroFrames (c : Nat) : Nat → List (List Nat)
  | 0 => []
  | k + 1 =>
    (u16be OpCode.Data.toNat ++ u16be ((c + 1) % 65536) ++ [])
      :: zeroFrames ((c + 1) % 65536) k

theorem zeroFrames_shape : ∀ (k c : Nat), (zeroFrames c k).length = k
    ∧ ∀ b ∈ zeroFrames c k, ∃ bn, b = u16be OpCode.Data.toNat ++ u16be bn ++ [] := by
  intro k
  induction k with
  | zero =>
    intro c
    exact ⟨rfl, by simp [zeroFrames]⟩
  | succ k IHk =>
    intro c
    refine ⟨by simp [zeroFrames, (IHk ((c + 1) % 65536)).1], ?_⟩
    intro b hb
    rcases List.mem_cons.mp hb with hb | hb
    · exact ⟨(c + 1) % 65536, hb⟩
    · exact (IHk ((c + 1) % 65536)).2 b hb

theorem runStream_blocksizeZero (src : Source) : ∀ (fuel c : Nat),
    runStream ⟨src, c, false, 0⟩ fuel = (zeroFrames c fuel, .fuelOut) := by
  intro fuel
  induction fuel with
  | zero =>
    intro c
    rfl
  | succ f IHf =>
    intro c
    rw [runStream_succ_some _ _ _ _ (next_raw_blocksizeZero src c), IHf ((c + 1) % 65536)]
    rfl

/-- The sequence of matching Acks for the blocks a stream with counter `c`
will produce next. -/
def goodAcks (c : Nat) : Nat → List Packet
  | 0 => []
  | k + 1 => .Ack ⟨(c + 1) % 65536⟩ :: goodAcks ((c + 1) % 65536) k

theorem finishLoop_blocksizeZero (src : Source) (flag : Bool) : ∀ (k c : Nat),
    finishLoop ⟨src, c, false, 0⟩ (goodAcks c k) flag
      = ((zeroFrames c (k + 1)).map Sent.dataFrame, .error .transport) := by
  intro k
  induction k with
  | zero =>
    intro c
    rw [show goodAcks c 0 = [] from rfl,
      finishLoop_out_of_replies _ _ _ _ (next_raw_blocksizeZero src c)]
    rfl
  | succ f IHf =>
    intro c
    rw [show goodAcks c (f + 1) = .Ack ⟨(c + 1) % 65536⟩ :: goodAcks ((c + 1) % 65536) f
        from rfl,
      finishLoop_step_ok _ _ _ _ _ _ (next_raw_blocksizeZero src c)
        ((check_ack_ok_iff _ _).mpr rfl),
      IHf ((c + 1) % 65536)]
    rfl

/-- C9: `OptionAck::new` stores its arguments verbatim with no range
validation, so a Transfer can be created with blocksize 0; such a
transfer's DataStream never terminates — the zero-byte read is never
strictly shorter than the blocksize, so `is_finished` is never set,
`next_raw` never returns `None` (every run ends only by running out of
fuel), and the send loop of `Transfer::finish` keeps sending empty Data
frames for as long as matching Acks arrive, never reaching the successful
end; whereas for every blocksize of at least 1 and finite non-failing
source the stream does reach `None`. -/
theorem C9_blocksize_zero_divergence :
    (∀ (b t tmo : Option Nat), OptionAck.new b t tmo = ⟨b, t, tmo, []⟩)
    ∧ (∀ (src : Source),
        (Transfer.new src (OptionAck.new (some 0) none none)).source
          = DataStream.mk src 0 false 0)
    ∧ (∀ (src : Source) (flag : Bool) (k : Nat),
        finishLoop (DataStream.mk src 0 false 0) (goodAcks 0 k) flag
          = ((zeroFrames 0 (k + 1)).map Sent.dataFrame, .error .transport))
    ∧ (∀ (src : Source) (fuel : Nat),
        runStream (DataStream.mk src 0 false 0) fuel = (zeroFrames 0 fuel, .fuelOut))
    ∧ (∀ (c k : Nat), (zeroFrames c k).length = k
        ∧ ∀ b ∈ zeroFrames c k, ∃ bn, b = u16be OpCode.Data.toNat ++ u16be bn ++ [])
    ∧ (∀ (l : List Nat) (c B : Nat), 1 ≤ B →
        (runStream ⟨⟨l, none⟩, c, false, B⟩ (l.length / B + 2)).2 = .finished) := by
  refine ⟨fun b t tmo => rfl, fun src => rfl, ?_, ?_, ?_, ?_⟩
  · intro src flag k
    exact finishLoop_blocksizeZero src flag k 0
  · intro src fuel
    exact runStream_blocksizeZero src fuel 0
  · intro c k
    exact zeroFrames_shape k c
  · intro l c B hB
    exact (runStream_general B hB l.length l c rfl).2

theorem C9_witness :
    OptionAck.new (some 0) none none = ⟨some 0, none, none, []⟩
    ∧ (Transfer.new ⟨[1, 2], none⟩ (OptionAck.new (some 0) none none)).source
        = DataStream.mk ⟨[1, 2], none⟩ 0 false 0
    ∧ finishLoop (DataStream.mk ⟨[1, 2], none⟩ 0 false 0) (goodAcks 0 1) false
        = ((zeroFrames 0 2).map Sent.dataFrame, .error .transport)
    ∧ runStream (DataStream.mk ⟨[1, 2], none⟩ 0 false 0) 5 = (zeroFrames 0 5, .fuelOut)
    ∧ ((zeroFrames 3 4).length = 4
        ∧ ∀ b ∈ zeroFrames 3 4, ∃ bn, b = u16be OpCode.Data.toNat ++ u16be bn ++ [])
    ∧ (runStream ⟨⟨[1, 2, 3], none⟩, 0, false, 8⟩ ((3 : Nat) / 8 + 2)).2 = .finished := by
  obtain ⟨h1, h2, h3, h4, h5, h6⟩ := C9_blocksize_zero_divergence
  exact ⟨h1 (some 0) none none, h2 ⟨[1, 2], none⟩, h3 ⟨[1, 2], none⟩ false 1,
    h4 ⟨[1, 2], none⟩ 5, h5 3 4, h6 [1, 2, 3] 0 8 (by omega)⟩

end SimpleTftp
